import Mathlib

/-!
# rubixx-time-tracker: a shallow embedding of `main.go`

The program logs into a time-keeping API, fetches the hours of the current
month, and prints a report.  The embedding below follows `main.go` function
by function.  Console output and HTTP requests are recorded as a list of
`Event`s; the outside world (terminal, HTTP server, clock) is an explicit
`World` argument.  A Go `error` is modelled by its message, and a run-time
panic (an index out of range) is a separate outcome, so that the absence of
panics is a statement that can be proved.
-/

namespace Rubixx

/-! ## Go values -/

/-- A Go `float64`: a finite value `(-1)^neg * mant * 2^exp`, an infinity or a
NaN.  Finite values produced by the operations below are normalised:
`mant < 2^53`, `exp ≥ -1074`, and `mant ≥ 2^52` unless `exp = -1074`. -/
inductive Float64 where
  | fin (neg : Bool) (mant : Nat) (exp : Int)
  | inf (neg : Bool)
  | nan
  deriving DecidableEq, Repr

/-- The outcome of a Go function that returns `(value, error)` and may panic. -/
inductive Result (α : Type) where
  | ok (value : α)
  | err (msg : String)
  | panic (msg : String)
  deriving DecidableEq, Repr

/-- Sequencing of Go statements: an error or a panic ends the function. -/
def Result.bind {α β : Type} (r : Result α) (f : α → Result β) : Result β :=
  match r with
  | .ok a => f a
  | .err e => .err e
  | .panic p => .panic p

/-- Go slice indexing `xs[i]`: panics when `i` is out of range. -/
def index {α : Type} (xs : List α) (i : Nat) : Result α :=
  match xs.get? i with
  | some a => .ok a
  | none => .panic "runtime error: index out of range"

/-! ## Data structures for API responses (`main.go` lines 16-41) -/

structure AuthUser where
  UserId : String
  Token : String
  deriving DecidableEq, Repr

structure AuthResponse where
  User : AuthUser
  deriving DecidableEq, Repr

structure TotalHours where
  Amount : Float64
  deriving DecidableEq, Repr

structure Hour where
  Amount : Float64
  deriving DecidableEq, Repr

structure UserCalculatedData where
  Hours : List Hour
  TotalHours : List TotalHours
  deriving DecidableEq, Repr

structure TimeResponse where
  UserCalculatedData : List UserCalculatedData
  deriving DecidableEq, Repr

/-! ## Configuration constants (`main.go` lines 44-47) -/

def rubixxBaseURL : String := "https://rubixx.timetrakgo.com/api"

/-- The message of `fmt.Errorf("received empty or invalid time data")`. -/
def errEmptyTimeData : String := "received empty or invalid time data"

/-! ## The reduction of a decoded hours response (`main.go` lines 160-169) -/

/-- The guard of lines 160-162.  Go's `||` evaluates its right operand only
when the left one is false, so `UserCalculatedData[0]` is indexed only after
`len(UserCalculatedData) == 0` was found false. -/
def timeDataInvalid (timeResponse : TimeResponse) : Result Bool :=
  if timeResponse.UserCalculatedData.length == 0 then .ok true
  else
    (index timeResponse.UserCalculatedData 0).bind fun u0 =>
    if u0.Hours.length == 0 then .ok true
    else
      (index timeResponse.UserCalculatedData 0).bind fun u1 =>
      .ok (u1.TotalHours.length == 0)

/-- Lines 160-169 of `getWorkingHours`: from the decoded response to
`(numberOfDaysWorked, totalHours, error)`. -/
def reduceTimeResponse (timeResponse : TimeResponse) : Result (Int × Float64) :=
  (timeDataInvalid timeResponse).bind fun invalid =>
  if invalid then .err errEmptyTimeData
  else
    (index timeResponse.UserCalculatedData 0).bind fun u0 =>
    let numberOfDaysWorked : Int := Int.ofNat u0.Hours.length
    (index timeResponse.UserCalculatedData 0).bind fun u1 =>
    (index u1.TotalHours 0).bind fun t0 =>
    let totalHours := t0.Amount
    .ok (numberOfDaysWorked, totalHours)

/-! ## Go's `time` package, as far as `getStartAndEndDates` uses it

Days are counted from 0001-01-01 of the proleptic Gregorian calendar; Go
counts them from a year that is also `1` modulo 400, so the cycle arithmetic
is the same.  Integers are unbounded: the quantities stay far inside Go's
64-bit range for every clock reading. -/

/-- A Go `time.Time`: seconds since 1970-01-01T00:00:00Z together with the
offset (seconds east of UTC) of the value's Location at that instant. -/
structure Time where
  sec : Int
  offset : Int
  deriving DecidableEq, Repr

/-- The Location `time.UTC`, as its offset. -/
def UTC : Int := 0

def secondsPerDay : Int := 86400

/-- Days from 0001-01-01 to 1970-01-01. -/
def unixEpochDays : Int := 719162

/-- Go's `isLeap`. -/
def isLeap (year : Int) : Bool :=
  year % 4 == 0 && (year % 100 != 0 || year % 400 == 0)

/-- Go's table `daysBefore`: `daysBefore[m]` counts the days of a non-leap
year before month `m+1`. -/
def daysBefore (m : Int) : Int :=
  if m ≤ 0 then 0 else if m = 1 then 31 else if m = 2 then 59 else if m = 3 then 90
  else if m = 4 then 120 else if m = 5 then 151 else if m = 6 then 181
  else if m = 7 then 212 else if m = 8 then 243 else if m = 9 then 273
  else if m = 10 then 304 else if m = 11 then 334 else 365

/-- Go's `norm`: `(hi, lo)` with `lo` brought into `[0, base)`. -/
def norm (hi lo base : Int) : Int × Int :=
  let hl : Int × Int :=
    if lo < 0 then
      let n := (-lo - 1) / base + 1
      (hi - n, lo + n * base)
    else (hi, lo)
  if hl.2 ≥ base then
    let n := hl.2 / base
    (hl.1 + n, hl.2 - n * base)
  else hl

/-- Go's `daysSinceEpoch`: days from the epoch to January 1 of `year`. -/
def daysSinceEpoch (year : Int) : Int :=
  let y := year - 1
  let n400 := y / 400
  let y1 := y - 400 * n400
  let n100 := y1 / 100
  let y2 := y1 - 100 * n100
  let n4 := y2 / 4
  let y3 := y2 - 4 * n4
  146097 * n400 + 36524 * n100 + 1461 * n4 + 365 * y3

/-- The first half of Go's `absDate`: the year of day number `d` and the
zero-based day within that year. -/
def absYear (d : Int) : Int × Int :=
  let n400 := d / 146097
  let d1 := d - 146097 * n400
  let n100 := d1 / 36524
  let n100 := n100 - n100 / 4
  let d2 := d1 - 36524 * n100
  let n4 := d2 / 1461
  let d3 := d2 - 1461 * n4
  let n1 := d3 / 365
  let n1 := n1 - n1 / 4
  let yday := d3 - 365 * n1
  (1 + 400 * n400 + 100 * n100 + 4 * n4 + n1, yday)

/-- The end of Go's `absDate`: month and day of the month from the zero-based
day of a non-leap year.  The month is first estimated as if every month had
31 days; the estimate is too low by at most one. -/
def monthOfDay (day : Int) : Int × Int :=
  let month := day / 31
  let stop := daysBefore (month + 1)
  if day ≥ stop then (month + 1 + 1, day - stop + 1)
  else (month + 1, day - daysBefore month + 1)

/-- The second half of Go's `absDate`: month and day of the month from the
year and the zero-based day of the year.  In a leap year February 29 is
answered directly and the days after it are shifted back by one. -/
def monthDay (year yday : Int) : Int × Int :=
  if isLeap year && yday == 31 + 29 - 1 then (2, 29)
  else monthOfDay (if isLeap year && yday > 31 + 29 - 1 then yday - 1 else yday)

/-- Go's `absDate` on a day number: `(year, month, day)`. -/
def absDate (d : Int) : Int × Int × Int :=
  let yd := absYear d
  let md := monthDay yd.1 yd.2
  (yd.1, md.1, md.2)

/-- The day number of the calendar day that `t` shows in its Location. -/
def Time.absDays (t : Time) : Int := (t.sec + t.offset) / secondsPerDay + unixEpochDays

def Time.Year (t : Time) : Int := (absDate t.absDays).1

def Time.Month (t : Time) : Int := (absDate t.absDays).2.1

def Time.Day (t : Time) : Int := (absDate t.absDays).2.2

/-- Go's `time.Date` for a Location with a fixed offset `loc`; the nanosecond
argument is left out (the program passes 0).  Out-of-range months and days
are normalised as Go does. -/
def Date (year month day hour min sec : Int) (loc : Int) : Time :=
  let ym := norm year (month - 1) 12
  let year := ym.1
  let month := ym.2 + 1
  let ms := norm min sec 60
  let hm := norm hour ms.1 60
  let dh := norm day hm.1 24
  let day := dh.1
  let d := daysSinceEpoch year + daysBefore (month - 1)
    + (if isLeap year && month ≥ 3 then 1 else 0) + (day - 1)
  let abs := d * secondsPerDay + (dh.2 * 3600 + hm.2 * 60 + ms.2)
  { sec := abs - unixEpochDays * secondsPerDay - loc, offset := loc }

/-- Go's `Time.AddDate`. -/
def Time.AddDate (t : Time) (years months days : Int) : Time :=
  let s := (t.sec + t.offset) % secondsPerDay
  Date (t.Year + years) (t.Month + months) (t.Day + days)
    (s / 3600) (s % 3600 / 60) (s % 60) t.offset

/-- Go's `appendInt`: decimal digits of `x`, zero-padded to `width`, with a
leading minus sign for a negative `x`. -/
def appendInt (x : Int) (width : Nat) : String :=
  let digits := toString x.natAbs
  (if x < 0 then "-" else "") ++ String.mk (List.replicate (width - digits.length) (Char.ofNat 48))
    ++ digits

/-- The call `t.Format("2006-01-02")`. -/
def Time.Format (t : Time) : String :=
  appendInt t.Year 4 ++ "-" ++ appendInt t.Month 2 ++ "-" ++ appendInt t.Day 2

/-! ## Go's `float64` arithmetic (IEEE 754 binary64, round to nearest even)

Every operation computes the exact result as a ratio of naturals and rounds
it once.  Go lets an implementation fuse `x*y + z` into one operation that is
rounded once (`fma` below); a build either rounds the product and the sum one
after the other or fuses them. -/

namespace Float64

/-- A zero with the given sign. -/
def zero (neg : Bool) : Float64 := .fin neg 0 (-1074)

def bitLengthAux : Nat → Nat → Nat
  | 0, _ => 0
  | fuel + 1, n => if n = 0 then 0 else bitLengthAux fuel (n / 2) + 1

/-- The number of binary digits of `n`. -/
def bitLength (n : Nat) : Nat := bitLengthAux n n

/-- The ratio `num / den / 2^e` as a ratio of naturals. -/
def scaled (num den : Nat) (e : Int) : Nat × Nat :=
  if e ≥ 0 then (num, den * 2 ^ e.toNat) else (num * 2 ^ (-e).toNat, den)

/-- The `float64` nearest to `± num / den` (ties to the even mantissa):
the conversion of an exact value to `float64`. -/
def ofRatio (neg : Bool) (num den : Nat) : Float64 :=
  if den = 0 then .nan
  else if num = 0 then zero neg
  else
    let e0 : Int := (bitLength num : Int) - (bitLength den : Int) - 52
    let s0 := scaled num den e0
    let e1 : Int := if s0.1 / s0.2 < 2 ^ 52 then e0 - 1 else e0
    let e : Int := if e1 < -1074 then -1074 else e1
    let s := scaled num den e
    let q := s.1 / s.2
    let r := s.1 % s.2
    let m := if 2 * r > s.2 ∨ (2 * r = s.2 ∧ q % 2 = 1) then q + 1 else q
    let me : Nat × Int := if m = 2 ^ 53 then (2 ^ 52, e + 1) else (m, e)
    if me.2 > 971 then .inf neg else .fin neg me.1 me.2

/-- The exact value `mant * 2^exp` as a ratio of naturals. -/
def ratio (mant : Nat) (exp : Int) : Nat × Nat := scaled mant 1 (-exp)

/-- The conversion `float64(n)` of a Go `int`. -/
def ofInt (n : Int) : Float64 := ofRatio (decide (n < 0)) n.natAbs 1

/-- Unary minus. -/
def neg : Float64 → Float64
  | .fin s m e => .fin (!s) m e
  | .inf s => .inf (!s)
  | .nan => .nan

/-- The product `x * y`. -/
def mul : Float64 → Float64 → Float64
  | .nan, _ => .nan
  | _, .nan => .nan
  | .inf s, .inf t => .inf (xor s t)
  | .inf s, .fin t m _ => if m = 0 then .nan else .inf (xor s t)
  | .fin s m _, .inf t => if m = 0 then .nan else .inf (xor s t)
  | .fin s m e, .fin t n f =>
    let a := ratio m e
    let b := ratio n f
    ofRatio (xor s t) (a.1 * b.1) (a.2 * b.2)

/-- The sum `x + y`. -/
def add : Float64 → Float64 → Float64
  | .nan, _ => .nan
  | _, .nan => .nan
  | .inf s, .inf t => if s = t then .inf s else .nan
  | .inf s, .fin _ _ _ => .inf s
  | .fin _ _ _, .inf t => .inf t
  | .fin s m e, .fin t n f =>
    let a := ratio m e
    let b := ratio n f
    let x : Int := (if s then -1 else 1) * ((a.1 * b.2 : Nat) : Int)
    let y : Int := (if t then -1 else 1) * ((b.1 * a.2 : Nat) : Int)
    if x + y = 0 then zero (s && t)
    else ofRatio (decide (x + y < 0)) (x + y).natAbs (a.2 * b.2)

/-- The difference `x - y`. -/
def sub (x y : Float64) : Float64 := add x (neg y)

/-- The sum of an infinite product of sign `s` and `z`. -/
def addInf (s : Bool) : Float64 → Float64
  | .nan => .nan
  | .inf u => if s = u then .inf s else .nan
  | .fin _ _ _ => .inf s

/-- The fused multiply-add `x*y + z`: the exact product and sum, rounded once. -/
def fma (x y z : Float64) : Float64 :=
  match x, y with
  | .nan, _ => .nan
  | _, .nan => .nan
  | .inf s, .inf t => addInf (xor s t) z
  | .inf s, .fin t n _ => if n = 0 then .nan else addInf (xor s t) z
  | .fin s m _, .inf t => if m = 0 then .nan else addInf (xor s t) z
  | .fin s m e, .fin t n f =>
    match z with
    | .nan => .nan
    | .inf u => .inf u
    | .fin u k g =>
      let a := ratio m e
      let b := ratio n f
      let c := ratio k g
      let p : Int := (if xor s t then -1 else 1) * ((a.1 * b.1 * c.2 : Nat) : Int)
      let q : Int := (if u then -1 else 1) * ((c.1 * (a.2 * b.2) : Nat) : Int)
      if p + q = 0 then zero (xor s t && u)
      else ofRatio (decide (p + q < 0)) (p + q).natAbs (a.2 * b.2 * c.2)

/-- The comparison `x < y`; false when an operand is NaN. -/
def lt : Float64 → Float64 → Bool
  | .nan, _ => false
  | _, .nan => false
  | .inf s, .inf t => s && !t
  | .inf s, .fin _ _ _ => s
  | .fin _ _ _, .inf t => !t
  | .fin s m e, .fin t n f =>
    let a := ratio m e
    let b := ratio n f
    let x : Int := (if s then -1 else 1) * ((a.1 * b.2 : Nat) : Int)
    let y : Int := (if t then -1 else 1) * ((b.1 * a.2 : Nat) : Int)
    decide (x < y)

/-- The comparison `x >= y`; false when an operand is NaN. -/
def ge : Float64 → Float64 → Bool
  | .nan, _ => false
  | _, .nan => false
  | x, y => !lt x y

/-- The magnitude of a finite value rounded to hundredths, ties to even:
the digits that `%.2f` prints, as a count of hundredths. -/
def hundredths (mant : Nat) (exp : Int) : Nat :=
  let a := ratio mant exp
  let q := a.1 * 100 / a.2
  let r := a.1 * 100 % a.2
  if 2 * r > a.2 ∨ (2 * r = a.2 ∧ q % 2 = 1) then q + 1 else q

/-- The text of `fmt.Printf("%.2f", x)`. -/
def format2 : Float64 → String
  | .nan => "NaN"
  | .inf s => if s then "-Inf" else "+Inf"
  | .fin s m e =>
    let h := hundredths m e
    (if s then "-" else "") ++ toString (h / 100) ++ "."
      ++ toString (h % 100 / 10) ++ toString (h % 10)

end Float64

/-- The constant `expectedWorkHoursPerDay = 7.4`, converted to `float64` where
it meets a `float64` operand. -/
def expectedWorkHoursPerDay : Float64 := Float64.ofRatio false 74 10

/-! ## The outside world and the observable effects -/

/-- An HTTP response: status code, status text, and what decoding its JSON
body into the target type gives (`json.NewDecoder(res.Body).Decode`). -/
structure Response (β : Type) where
  StatusCode : Int
  Status : String
  Body : Except String β

/-- What the program reads from outside.  Each field is the result of the
call named in its comment; a Go `error` is given by its message. -/
structure World where
  /-- `reader.ReadString` on standard input. -/
  readUsername : Except String String
  /-- `term.ReadPassword`. -/
  readPassword : Except String String
  /-- `http.Get`, by URL. -/
  httpGet : String → Except String (Response AuthResponse)
  /-- `http.NewRequest("GET", url, nil)`, by URL. -/
  newRequest : String → Except String Unit
  /-- `client.Do`, by URL and `Authorization` header. -/
  clientDo : String → String → Except String (Response TimeResponse)
  /-- `time.Now()`, a Time in the process's local zone. -/
  now : Time
  /-- Whether the build fuses the product of line 173 into the subtraction of
  line 174 (as Go permits, and as compilers for targets with a fused
  multiply-add instruction do). -/
  fused : Bool

/-- An observable effect of the program. -/
inductive Event where
  | stdout (text : String)
  | stderr (text : String)
  | authRequest (url : String)
  | hoursRequest (url : String) (authorization : String)
  deriving DecidableEq, Repr

def StatusOK : Int := 200

/-- Go's `unicode.IsSpace`. -/
def isSpace (c : Char) : Bool :=
  let n := c.toNat
  (9 ≤ n && n ≤ 13) || n == 32 || n == 133 || n == 160 || n == 5760
    || (8192 ≤ n && n ≤ 8202) || n == 8232 || n == 8233 || n == 8239 || n == 8287
    || n == 12288

/-- Go's `strings.TrimSpace`. -/
def TrimSpace (s : String) : String :=
  String.mk ((((s.data.dropWhile isSpace).reverse).dropWhile isSpace).reverse)

/-! ## The program (`main.go` lines 49-185) -/

/-- The function `getCredentials` (lines 77-96). -/
def getCredentials (w : World) : List Event × Result (String × String) :=
  let out1 := [Event.stdout "Please enter your username:\n"]
  match w.readUsername with
  | .error e => (out1, .err ("failed to read username: " ++ e))
  | .ok username =>
    let out2 := out1 ++ [Event.stdout "Please enter your password:\n"]
    match w.readPassword with
    | .error e => (out2, .err ("failed to read password: " ++ e))
    | .ok password =>
      (out2 ++ [Event.stdout "\n"], .ok (TrimSpace username, TrimSpace password))

/-- The URL built on line 99. -/
def rubixxAuthUrl (username password : String) : String :=
  rubixxBaseURL ++ "/auth/authenticate?username=" ++ username ++ "&password=" ++ password

/-- The function `getUserAuthToken` (lines 98-117). -/
def getUserAuthToken (w : World) (username password : String) :
    List Event × Result (String × String) :=
  let url := rubixxAuthUrl username password
  let out := [Event.authRequest url]
  match w.httpGet url with
  | .error e => (out, .err ("authentication request failed: " ++ e))
  | .ok res =>
    if res.StatusCode ≠ StatusOK then
      (out, .err ("authentication failed with status: " ++ res.Status))
    else
      match res.Body with
      | .error e => (out, .err ("failed to parse authentication response: " ++ e))
      | .ok authResponse => (out, .ok (authResponse.User.UserId, authResponse.User.Token))

/-- The local `startOfMonth` of `getStartAndEndDates` (line 122). -/
def startOfMonth (current : Time) : Time :=
  Date current.Year current.Month 1 0 0 0 UTC

/-- The local `endOfMonth` of `getStartAndEndDates` (line 123). -/
def endOfMonth (current : Time) : Time :=
  (startOfMonth current).AddDate 0 1 (-1)

/-- The function `getStartAndEndDates` (lines 119-130). -/
def getStartAndEndDates (w : World) : List Event × (String × String) :=
  let current := w.now
  ([Event.stdout ("Date range: " ++ (startOfMonth current).Format ++ " to "
      ++ (endOfMonth current).Format ++ "\n")],
    ((startOfMonth current).Format, (endOfMonth current).Format))

/-- The URL built on lines 134-135. -/
def rubixxPunchUrl (userId startOfMonth endOfMonth : String) : String :=
  rubixxBaseURL ++ "/punch/GetCalculatedHours?userId=" ++ userId
    ++ "&groupId=&StartDateTime=" ++ startOfMonth ++ "&EndDateTime=" ++ endOfMonth
    ++ "&ReturnWorkWeek=false"

/-- Lines 151-169 of `getWorkingHours`: from the response of `client.Do` to the
function's result. -/
def hoursFromResponse (res : Response TimeResponse) : Result (Int × Float64) :=
  if res.StatusCode ≠ StatusOK then .err ("API returned error status: " ++ res.Status)
  else
    match res.Body with
    | .error e => .err ("failed to parse time data: " ++ e)
    | .ok timeResponse => reduceTimeResponse timeResponse

/-- The function `getWorkingHours` (lines 132-170). -/
def getWorkingHours (w : World) (userId token : String) :
    List Event × Result (Int × Float64) :=
  let dates := getStartAndEndDates w
  let url := rubixxPunchUrl userId dates.2.1 dates.2.2
  match w.newRequest url with
  | .error e => (dates.1, .err ("failed to create request: " ++ e))
  | .ok _ =>
    let authorization := "Bearer " ++ token
    let out := dates.1 ++ [Event.hoursRequest url authorization]
    match w.clientDo url authorization with
    | .error e => (out, .err ("failed to send request: " ++ e))
    | .ok res => (out, hoursFromResponse res)

/-- The status line printed by lines 180-184. -/
def statusLine (delta : Float64) : String :=
  if Float64.ge delta (Float64.zero false) then
    "Status: Over by " ++ Float64.format2 delta ++ " hours\n"
  else
    "Status: Down by " ++ Float64.format2 (Float64.neg delta) ++ " hours\n"

/-- The value of `delta` on line 174.  A build that fuses computes
`numberOfHoursWorked - 7.4 * float64(numberOfDaysWorked)` with one rounding;
otherwise the product is rounded to `expectedWorkingHours` first. -/
def reportDelta (fused : Bool) (numberOfDaysWorked : Int) (numberOfHoursWorked : Float64) :
    Float64 :=
  if fused then
    Float64.fma (Float64.neg expectedWorkHoursPerDay) (Float64.ofInt numberOfDaysWorked)
      numberOfHoursWorked
  else
    Float64.sub numberOfHoursWorked
      (Float64.mul expectedWorkHoursPerDay (Float64.ofInt numberOfDaysWorked))

/-- The function `logResult` (lines 172-185): the four lines it prints.  The
first argument says whether the build fuses lines 173-174; the value printed
as expected hours is the rounded product in both cases. -/
def logResult (fused : Bool) (numberOfDaysWorked : Int) (numberOfHoursWorked : Float64) :
    List Event :=
  let expectedWorkingHours :=
    Float64.mul expectedWorkHoursPerDay (Float64.ofInt numberOfDaysWorked)
  let delta := reportDelta fused numberOfDaysWorked numberOfHoursWorked
  [Event.stdout ("Days worked: " ++ toString numberOfDaysWorked ++ "\n"),
   Event.stdout ("Hours worked: " ++ Float64.format2 numberOfHoursWorked ++ "\n"),
   Event.stdout ("Expected hours: " ++ Float64.format2 expectedWorkingHours ++ "\n"),
   Event.stdout (statusLine delta)]

/-- The function `run` (lines 57-75). -/
def run (w : World) : List Event × Result Unit :=
  let c := getCredentials w
  match c.2 with
  | .err e => (c.1, .err ("failed to get credentials: " ++ e))
  | .panic p => (c.1, .panic p)
  | .ok (username, password) =>
    let a := getUserAuthToken w username password
    match a.2 with
    | .err e => (c.1 ++ a.1, .err ("authentication failed: " ++ e))
    | .panic p => (c.1 ++ a.1, .panic p)
    | .ok (userId, token) =>
      let h := getWorkingHours w userId token
      match h.2 with
      | .err e => (c.1 ++ a.1 ++ h.1, .err ("failed to retrieve working hours: " ++ e))
      | .panic p => (c.1 ++ a.1 ++ h.1, .panic p)
      | .ok (numberOfDaysWorked, numberOfHoursWorked) =>
        (c.1 ++ a.1 ++ h.1 ++ logResult w.fused numberOfDaysWorked numberOfHoursWorked,
          .ok ())

/-- The function `main` (lines 49-54): the effects and the exit status. -/
def main (w : World) : List Event × Int :=
  let r := run w
  match r.2 with
  | .ok _ => (r.1, 0)
  | .err e => (r.1 ++ [Event.stderr ("Error: " ++ e ++ "\n")], 1)
  | .panic p => (r.1 ++ [Event.stderr ("panic: " ++ p ++ "\n")], 2)

/-- The sum of the `amount` fields of a list, added left to right in `float64`. -/
def sumAmounts (amounts : List Float64) : Float64 :=
  amounts.foldl Float64.add (Float64.zero false)

/-- A world whose hours endpoint answers `200 OK` with the given decoded body. -/
def worldWithHours (timeResponse : TimeResponse) : World where
  readUsername := .ok "user\n"
  readPassword := .ok "secret"
  httpGet := fun _ => .ok ⟨200, "200 OK", .ok ⟨⟨"u1", "t1"⟩⟩⟩
  newRequest := fun _ => .ok ()
  clientDo := fun _ _ => .ok ⟨200, "200 OK", .ok timeResponse⟩
  now := ⟨1706743800, 0⟩
  fused := false

/-- An aggregate with two day entries of 8 hours and the totals 1 and 2. -/
def twoTotals : UserCalculatedData :=
  ⟨[⟨Float64.ofInt 8⟩, ⟨Float64.ofInt 8⟩], [⟨Float64.ofInt 1⟩, ⟨Float64.ofInt 2⟩]⟩

/-- Go's `daysIn`: the number of days of month `m` of `year`. -/
def daysIn (m year : Int) : Int :=
  if m = 2 ∧ isLeap year then 29 else daysBefore m - daysBefore (m - 1)

/-- The zero-based day of the year of the first day of month `m`: the offset
that `Date` adds to `daysSinceEpoch year`. -/
def firstOfMonth (year m : Int) : Int :=
  daysBefore (m - 1) + (if isLeap year && m ≥ 3 then 1 else 0)

/-- Go's `Time.UTC`: the same instant, shown in UTC. -/
def Time.UTC (t : Time) : Time := { sec := t.sec, offset := 0 }

/-- A world whose clock reads `now`. -/
def worldAt (now : Time) : World where
  readUsername := .ok "user\n"
  readPassword := .ok "secret"
  httpGet := fun _ => .ok ⟨200, "200 OK", .ok ⟨⟨"u1", "t1"⟩⟩⟩
  newRequest := fun _ => .ok ()
  clientDo := fun _ _ => .ok ⟨200, "200 OK", .ok ⟨[]⟩⟩
  now := now
  fused := false

/-- The text starts with a minus sign. -/
def startsWithMinus (text : String) : Bool :=
  match text.data with
  | c :: _ => c == '-'
  | [] => false

/-- The exact value of a finite `float64` (0 for an infinity or a NaN). -/
def Float64.toRat : Float64 → ℚ
  | .fin s m e => (if s then -1 else 1) * (m : ℚ) * (2 : ℚ) ^ e
  | _ => 0

/-- The labels that start the four lines of the report (lines 176-184). -/
def reportLabels : List String :=
  ["Days worked: ", "Hours worked: ", "Expected hours: ", "Status: "]

/-- The event is a line of the report: console output that starts with one
of the four labels. -/
def Event.isReportLine : Event → Bool
  | .stdout text => reportLabels.any fun label => label.data.isPrefixOf text.data
  | _ => false

/-- The event is the request to the authentication endpoint. -/
def Event.isAuthRequest : Event → Bool
  | .authRequest _ => true
  | _ => false

/-- The event is the request to the hours endpoint. -/
def Event.isHoursRequest : Event → Bool
  | .hoursRequest _ _ => true
  | _ => false

/-- A world whose authentication endpoint answers with the given status and a
body that would decode, and whose hours endpoint would answer with a report. -/
def worldWithAuthStatus (code : Int) (status : String) : World where
  readUsername := .ok "user\n"
  readPassword := .ok "secret"
  httpGet := fun _ => .ok ⟨code, status, .ok ⟨⟨"u1", "t1"⟩⟩⟩
  newRequest := fun _ => .ok ()
  clientDo := fun _ _ => .ok ⟨200, "200 OK",
    .ok ⟨[⟨[⟨Float64.ofInt 8⟩], [⟨Float64.ofInt 8⟩]⟩]⟩⟩
  now := ⟨1706743800, 0⟩
  fused := false

/-! ## Theorems -/

set_option maxRecDepth 100000
set_option exponentiation.threshold 4096

/-! ### The reduction of the hours response -/

theorem reduceTimeResponse_nil :
    reduceTimeResponse ⟨[]⟩ = .err errEmptyTimeData := rfl

theorem reduceTimeResponse_cons (a : UserCalculatedData) (rest : List UserCalculatedData) :
    reduceTimeResponse ⟨a :: rest⟩ =
      match a.Hours, a.TotalHours with
      | [], _ => .err errEmptyTimeData
      | _ :: _, [] => .err errEmptyTimeData
      | hs@(_ :: _), t0 :: _ => .ok ((hs.length : Int), t0.Amount) := by
  obtain ⟨hs, ts⟩ := a
  cases hs <;> cases ts <;> rfl

theorem getWorkingHours_ok (w : World) (userId token : String) (res : Response TimeResponse)
    (hreq : w.newRequest (rubixxPunchUrl userId (getStartAndEndDates w).2.1
      (getStartAndEndDates w).2.2) = .ok ())
    (hdo : w.clientDo (rubixxPunchUrl userId (getStartAndEndDates w).2.1
      (getStartAndEndDates w).2.2) ("Bearer " ++ token) = .ok res) :
    (getWorkingHours w userId token).2 = hoursFromResponse res := by
  simp only [getWorkingHours, hreq, hdo]

theorem hoursFromResponse_ok (res : Response TimeResponse) (timeResponse : TimeResponse)
    (hstatus : res.StatusCode = 200) (hbody : res.Body = .ok timeResponse) :
    hoursFromResponse res = reduceTimeResponse timeResponse := by
  simp [hoursFromResponse, hstatus, hbody, StatusOK]

/-- C1: when the hours endpoint answers 200 with a body that decodes to a
response whose first aggregate has an empty `hours` list or an empty
`totalHours` list (whatever the other list holds), `getWorkingHours` fails
with "received empty or invalid time data", and it returns no success value,
so in particular not `(0, 0)`. -/
theorem C1_empty_lists_are_an_error (w : World) (userId token : String)
    (res : Response TimeResponse) (a : UserCalculatedData) (rest : List UserCalculatedData)
    (hreq : w.newRequest (rubixxPunchUrl userId (getStartAndEndDates w).2.1
      (getStartAndEndDates w).2.2) = .ok ())
    (hdo : w.clientDo (rubixxPunchUrl userId (getStartAndEndDates w).2.1
      (getStartAndEndDates w).2.2) ("Bearer " ++ token) = .ok res)
    (hstatus : res.StatusCode = 200) (hbody : res.Body = .ok ⟨a :: rest⟩)
    (hempty : a.Hours = [] ∨ a.TotalHours = []) :
    (getWorkingHours w userId token).2 = .err "received empty or invalid time data" ∧
      ∀ v, (getWorkingHours w userId token).2 ≠ .ok v := by
  have h : (getWorkingHours w userId token).2 = .err errEmptyTimeData := by
    rw [getWorkingHours_ok w userId token res hreq hdo,
      hoursFromResponse_ok res _ hstatus hbody, reduceTimeResponse_cons]
    obtain ⟨hs, ts⟩ := a
    rcases hempty with h | h
    · simp only at h; subst h; rfl
    · simp only at h; subst h; cases hs <;> rfl
  refine ⟨h, fun v hv => ?_⟩
  rw [h] at hv
  exact Result.noConfusion hv

/-- C1, at two concrete responses: `hours` empty with `totalHours` non-empty,
and `totalHours` empty with `hours` non-empty. -/
theorem C1_empty_lists_are_an_error_witness :
    (getWorkingHours (worldWithHours ⟨[⟨[], [⟨Float64.ofInt 8⟩]⟩]⟩) "u1" "t1").2
        = .err "received empty or invalid time data" ∧
      (getWorkingHours (worldWithHours ⟨[⟨[⟨Float64.ofInt 8⟩], []⟩]⟩) "u1" "t1").2
        = .err "received empty or invalid time data" :=
  ⟨(C1_empty_lists_are_an_error (worldWithHours ⟨[⟨[], [⟨Float64.ofInt 8⟩]⟩]⟩) "u1" "t1"
      ⟨200, "200 OK", .ok ⟨[⟨[], [⟨Float64.ofInt 8⟩]⟩]⟩⟩ ⟨[], [⟨Float64.ofInt 8⟩]⟩ []
      rfl rfl rfl rfl (Or.inl rfl)).1,
   (C1_empty_lists_are_an_error (worldWithHours ⟨[⟨[⟨Float64.ofInt 8⟩], []⟩]⟩) "u1" "t1"
      ⟨200, "200 OK", .ok ⟨[⟨[⟨Float64.ofInt 8⟩], []⟩]⟩⟩ ⟨[⟨Float64.ofInt 8⟩], []⟩ []
      rfl rfl rfl rfl (Or.inr rfl)).1⟩

/-- C2: when the hours endpoint answers 200 with a body whose first aggregate
has non-empty `hours` and `totalHours`, the `daysWorked` that `getWorkingHours`
returns is the number of entries of the first aggregate's `hours` list; the
`amount` fields of the entries play no part. -/
theorem C2_daysWorked_is_entry_count (w : World) (userId token : String)
    (res : Response TimeResponse) (a : UserCalculatedData) (rest : List UserCalculatedData)
    (hreq : w.newRequest (rubixxPunchUrl userId (getStartAndEndDates w).2.1
      (getStartAndEndDates w).2.2) = .ok ())
    (hdo : w.clientDo (rubixxPunchUrl userId (getStartAndEndDates w).2.1
      (getStartAndEndDates w).2.2) ("Bearer " ++ token) = .ok res)
    (hstatus : res.StatusCode = 200) (hbody : res.Body = .ok ⟨a :: rest⟩)
    (hhours : a.Hours ≠ []) (htotal : a.TotalHours ≠ []) :
    ∃ totalHoursWorked, (getWorkingHours w userId token).2
      = .ok ((a.Hours.length : Int), totalHoursWorked) := by
  rw [getWorkingHours_ok w userId token res hreq hdo,
    hoursFromResponse_ok res _ hstatus hbody, reduceTimeResponse_cons]
  obtain ⟨hs, ts⟩ := a
  cases hs with
  | nil => exact absurd rfl hhours
  | cons h0 hs =>
    cases ts with
    | nil => exact absurd rfl htotal
    | cons t0 ts => exact ⟨t0.Amount, rfl⟩

/-- C2, at `hours = [{amount:0},{amount:8}]`: two days worked. -/
theorem C2_daysWorked_is_entry_count_witness :
    ∃ totalHoursWorked,
      (getWorkingHours (worldWithHours
        ⟨[⟨[⟨Float64.ofInt 0⟩, ⟨Float64.ofInt 8⟩], [⟨Float64.ofInt 8⟩]⟩]⟩) "u1" "t1").2
        = .ok (2, totalHoursWorked) :=
  C2_daysWorked_is_entry_count
    (worldWithHours ⟨[⟨[⟨Float64.ofInt 0⟩, ⟨Float64.ofInt 8⟩], [⟨Float64.ofInt 8⟩]⟩]⟩)
    "u1" "t1"
    ⟨200, "200 OK", .ok ⟨[⟨[⟨Float64.ofInt 0⟩, ⟨Float64.ofInt 8⟩], [⟨Float64.ofInt 8⟩]⟩]⟩⟩
    ⟨[⟨Float64.ofInt 0⟩, ⟨Float64.ofInt 8⟩], [⟨Float64.ofInt 8⟩]⟩ []
    rfl rfl rfl rfl (List.cons_ne_nil _ _) (List.cons_ne_nil _ _)

/-- C3: when the hours endpoint answers 200 with a body whose first aggregate
has non-empty `hours` and `totalHours`, the `totalHoursWorked` that
`getWorkingHours` returns is the `amount` of the first entry of the first
aggregate's `totalHours` list, whatever the later entries and the per-day
amounts are.  For the totals `[1, 2]` and the days `[8, 8]` it is 1, while
the totals sum to 3 and the days to 16. -/
theorem C3_totalHours_is_first_total (w : World) (userId token : String)
    (res : Response TimeResponse) (a : UserCalculatedData) (rest : List UserCalculatedData)
    (hreq : w.newRequest (rubixxPunchUrl userId (getStartAndEndDates w).2.1
      (getStartAndEndDates w).2.2) = .ok ())
    (hdo : w.clientDo (rubixxPunchUrl userId (getStartAndEndDates w).2.1
      (getStartAndEndDates w).2.2) ("Bearer " ++ token) = .ok res)
    (hstatus : res.StatusCode = 200) (hbody : res.Body = .ok ⟨a :: rest⟩)
    (hhours : a.Hours ≠ []) (htotal : a.TotalHours ≠ []) :
    (∃ t0 ts daysWorked, a.TotalHours = t0 :: ts ∧
      (getWorkingHours w userId token).2 = .ok (daysWorked, t0.Amount)) ∧
    (reduceTimeResponse ⟨[twoTotals]⟩ = .ok (2, Float64.ofInt 1) ∧
      sumAmounts (twoTotals.TotalHours.map (·.Amount)) = Float64.ofInt 3 ∧
      sumAmounts (twoTotals.Hours.map (·.Amount)) = Float64.ofInt 16 ∧
      Float64.ofInt 1 ≠ Float64.ofInt 3 ∧ Float64.ofInt 1 ≠ Float64.ofInt 16) := by
  refine ⟨?_, by decide⟩
  rw [getWorkingHours_ok w userId token res hreq hdo,
    hoursFromResponse_ok res _ hstatus hbody, reduceTimeResponse_cons]
  obtain ⟨hs, ts⟩ := a
  cases hs with
  | nil => exact absurd rfl hhours
  | cons h0 hs =>
    cases ts with
    | nil => exact absurd rfl htotal
    | cons t0 ts => exact ⟨t0, ts, _, rfl, rfl⟩

/-- C3, at the totals `[1, 2]`: the result is the first total, 1. -/
theorem C3_totalHours_is_first_total_witness :
    ∃ t0 ts daysWorked, twoTotals.TotalHours = t0 :: ts ∧
      (getWorkingHours (worldWithHours ⟨[twoTotals]⟩) "u1" "t1").2
        = .ok (daysWorked, t0.Amount) :=
  (C3_totalHours_is_first_total (worldWithHours ⟨[twoTotals]⟩) "u1" "t1"
    ⟨200, "200 OK", .ok ⟨[twoTotals]⟩⟩ twoTotals []
    rfl rfl rfl rfl (List.cons_ne_nil _ _) (List.cons_ne_nil _ _)).1

/-- C4: the reduction looks at the first aggregate only.  Two decoded
responses with the same first aggregate and any later aggregates (or none)
give the same outcome, and so do two 200 responses carrying them. -/
theorem C4_only_first_aggregate_is_consulted (a : UserCalculatedData)
    (rest rest2 : List UserCalculatedData) (code : Int) (status : String) :
    reduceTimeResponse ⟨a :: rest⟩ = reduceTimeResponse ⟨a :: rest2⟩ ∧
      reduceTimeResponse ⟨a :: rest⟩ = reduceTimeResponse ⟨[a]⟩ ∧
      hoursFromResponse ⟨code, status, .ok ⟨a :: rest⟩⟩
        = hoursFromResponse ⟨code, status, .ok ⟨a :: rest2⟩⟩ := by
  refine ⟨?_, ?_, ?_⟩
  · rw [reduceTimeResponse_cons, reduceTimeResponse_cons]
  · rw [reduceTimeResponse_cons, reduceTimeResponse_cons]
  · simp only [hoursFromResponse, reduceTimeResponse_cons]

theorem reduceTimeResponse_outcome (t : TimeResponse) :
    match reduceTimeResponse t with
    | .ok v => 1 ≤ v.1
    | .err e => e = errEmptyTimeData
    | .panic _ => False := by
  obtain ⟨l⟩ := t
  cases l with
  | nil => rfl
  | cons a rest =>
    rw [reduceTimeResponse_cons]
    obtain ⟨hs, ts⟩ := a
    cases hs with
    | nil => rfl
    | cons h0 hs =>
      cases ts with
      | nil => rfl
      | cons t0 ts =>
        show (1 : Int) ≤ ((h0 :: hs).length : Int)
        simp only [List.length_cons]
        omega

theorem reduceTimeResponse_ne_panic (t : TimeResponse) (p : String) :
    reduceTimeResponse t ≠ .panic p := by
  intro h
  have hk := reduceTimeResponse_outcome t
  rw [h] at hk
  exact hk

theorem hoursFromResponse_ne_panic (res : Response TimeResponse) (p : String) :
    hoursFromResponse res ≠ .panic p := by
  unfold hoursFromResponse
  split
  · exact fun h => Result.noConfusion h
  · split
    · exact fun h => Result.noConfusion h
    · exact reduceTimeResponse_ne_panic _ p

theorem getWorkingHours_ne_panic (w : World) (userId token p : String) :
    (getWorkingHours w userId token).2 ≠ .panic p := by
  simp only [getWorkingHours]
  split
  · exact fun h => Result.noConfusion h
  · split
    · exact fun h => Result.noConfusion h
    · exact hoursFromResponse_ne_panic _ p

/-- C10: the reduction never panics.  An empty aggregate list gives the
"received empty or invalid time data" error; the guard of lines 160-162
evaluates without an index out of range; every outcome of the reduction is
either that error or a success with `daysWorked ≥ 1`; and `getWorkingHours`
as a whole never panics. -/
theorem C10_reduction_is_total (timeResponse : TimeResponse) :
    reduceTimeResponse ⟨[]⟩ = .err "received empty or invalid time data" ∧
      (∃ invalid, timeDataInvalid timeResponse = .ok invalid) ∧
      (match reduceTimeResponse timeResponse with
        | .ok v => 1 ≤ v.1
        | .err e => e = "received empty or invalid time data"
        | .panic _ => False) ∧
      ∀ (w : World) (userId token p : String),
        (getWorkingHours w userId token).2 ≠ .panic p := by
  refine ⟨rfl, ?_, reduceTimeResponse_outcome timeResponse, getWorkingHours_ne_panic⟩
  obtain ⟨l⟩ := timeResponse
  cases l with
  | nil => exact ⟨true, rfl⟩
  | cons a rest =>
    obtain ⟨hs, ts⟩ := a
    cases hs with
    | nil => exact ⟨true, rfl⟩
    | cons h0 hs => exact ⟨_, rfl⟩

/-! ### The calendar arithmetic -/

theorem ediv_of_eq (x n q r : Int) (h : x = n * q + r) (h0 : 0 ≤ r) (h1 : r < n) :
    x / n = q := by
  subst h
  have hn : n ≠ 0 := by omega
  rw [Int.add_comm, Int.add_mul_ediv_left _ _ hn, Int.ediv_eq_zero_of_lt h0 h1]
  simp

theorem year_split (year : Int) :
    ∃ a b c e : Int, 0 ≤ b ∧ b ≤ 3 ∧ 0 ≤ c ∧ c ≤ 24 ∧ 0 ≤ e ∧ e ≤ 3 ∧
      year = 1 + 400 * a + 100 * b + 4 * c + e :=
  ⟨(year - 1) / 400, (year - 1) % 400 / 100, (year - 1) % 100 / 4, (year - 1) % 4,
    by omega, by omega, by omega, by omega, by omega, by omega, by omega⟩

theorem isLeap_split (a b c e : Int) (hb0 : 0 ≤ b) (hb : b ≤ 3) (hc0 : 0 ≤ c) (hc : c ≤ 24)
    (he0 : 0 ≤ e) (he : e ≤ 3) :
    isLeap (1 + 400 * a + 100 * b + 4 * c + e) = decide (e = 3 ∧ (c ≠ 24 ∨ b = 3)) := by
  have h4 : (1 + 400 * a + 100 * b + 4 * c + e) % 4 = 0 ↔ e = 3 := by omega
  have h100 : (1 + 400 * a + 100 * b + 4 * c + e) % 100 = 0 ↔ (e = 3 ∧ c = 24) := by omega
  have h400 : (1 + 400 * a + 100 * b + 4 * c + e) % 400 = 0 ↔ (e = 3 ∧ c = 24 ∧ b = 3) := by
    omega
  rw [Bool.eq_iff_iff]
  simp only [isLeap, Bool.and_eq_true, Bool.or_eq_true, beq_iff_eq, bne_iff_ne, ne_eq,
    decide_eq_true_eq, h4, h100, h400]
  tauto

theorem daysSinceEpoch_split (a b c e : Int) (hb0 : 0 ≤ b) (hb : b ≤ 3) (hc0 : 0 ≤ c)
    (hc : c ≤ 24) (he0 : 0 ≤ e) (he : e ≤ 3) :
    daysSinceEpoch (1 + 400 * a + 100 * b + 4 * c + e)
      = 146097 * a + 36524 * b + 1461 * c + 365 * e := by
  have h1 : (1 + 400 * a + 100 * b + 4 * c + e - 1) / 400 = a := by omega
  simp only [daysSinceEpoch, h1]
  have h2 : (1 + 400 * a + 100 * b + 4 * c + e - 1 - 400 * a) / 100 = b := by omega
  simp only [h2]
  have h3 : (1 + 400 * a + 100 * b + 4 * c + e - 1 - 400 * a - 100 * b) / 4 = c := by omega
  simp only [h3]
  omega

theorem absYear_split (a b c e k : Int) (hb0 : 0 ≤ b) (hb : b ≤ 3) (hc0 : 0 ≤ c)
    (hc : c ≤ 24) (he0 : 0 ≤ e) (he : e ≤ 3) (hk0 : 0 ≤ k)
    (hk : k < 365 + (if e = 3 ∧ (c ≠ 24 ∨ b = 3) then 1 else 0)) :
    absYear (146097 * a + 36524 * b + 1461 * c + 365 * e + k)
      = (1 + 400 * a + 100 * b + 4 * c + e, k) := by
  have hk1 : k ≤ 365 := by split at hk <;> omega
  have hk3 : e = 3 ∨ k ≤ 364 := by
    split at hk <;> omega
  have hk4 : c ≤ 23 ∨ b = 3 ∨ k ≤ 364 := by
    split at hk <;> omega
  clear hk
  have hr : 1461 * c + 365 * e + k < 36524 ∨ (b = 3 ∧ 1461 * c + 365 * e + k = 36524) := by
    omega
  have hs : 365 * e + k < 1461 := by omega
  have ht : k < 365 ∨ (e = 3 ∧ k = 365) := by omega
  have h1 : (146097 * a + 36524 * b + 1461 * c + 365 * e + k) / 146097 = a :=
    ediv_of_eq _ _ a (36524 * b + 1461 * c + 365 * e + k) (by ring) (by omega) (by omega)
  simp only [absYear, h1]
  have h2 : (146097 * a + 36524 * b + 1461 * c + 365 * e + k - 146097 * a) / 36524
      - (146097 * a + 36524 * b + 1461 * c + 365 * e + k - 146097 * a) / 36524 / 4 = b := by
    rcases hr with hr | ⟨hb3, hr⟩
    · rw [ediv_of_eq _ 36524 b (1461 * c + 365 * e + k) (by ring) (by omega) hr]
      omega
    · rw [ediv_of_eq _ 36524 4 0 (by omega) (by omega) (by omega)]
      omega
  simp only [h2]
  have h3 : (146097 * a + 36524 * b + 1461 * c + 365 * e + k - 146097 * a - 36524 * b) / 1461
      = c := ediv_of_eq _ _ c (365 * e + k) (by ring) (by omega) hs
  simp only [h3]
  have h4 : (146097 * a + 36524 * b + 1461 * c + 365 * e + k - 146097 * a - 36524 * b
      - 1461 * c) / 365 - (146097 * a + 36524 * b + 1461 * c + 365 * e + k - 146097 * a
      - 36524 * b - 1461 * c) / 365 / 4 = e := by
    rcases ht with ht | ⟨he3, ht⟩
    · rw [ediv_of_eq _ 365 e k (by ring) (by omega) ht]
      omega
    · rw [ediv_of_eq _ 365 4 0 (by omega) (by omega) (by omega)]
      omega
  simp only [h4]
  ext
  · simp
  · simp only; omega

/-- The year and the day of the year are recovered from the day number. -/
theorem absYear_daysSinceEpoch (year k : Int) (h0 : 0 ≤ k)
    (h1 : k < 365 + (if isLeap year then 1 else 0)) :
    absYear (daysSinceEpoch year + k) = (year, k) := by
  obtain ⟨a, b, c, e, hb0, hb, hc0, hc, he0, he, rfl⟩ := year_split year
  rw [isLeap_split a b c e hb0 hb hc0 hc he0 he] at h1
  rw [daysSinceEpoch_split a b c e hb0 hb hc0 hc he0 he]
  apply absYear_split a b c e k hb0 hb hc0 hc he0 he h0
  simpa using h1

/-- Every day number lies in some year. -/
theorem exists_year (d : Int) :
    ∃ year k : Int, 0 ≤ k ∧ k < 365 + (if isLeap year then 1 else 0) ∧
      d = daysSinceEpoch year + k := by
  have hr0 : 0 ≤ d % 146097 := by omega
  have hr1 : d % 146097 < 146097 := by omega
  have hd : d = 146097 * (d / 146097) + d % 146097 := by omega
  generalize d / 146097 = a at hd
  generalize d % 146097 = r at hd hr0 hr1
  -- the century within the 400-year cycle
  obtain ⟨b, r2, hb0, hb, hr20, hr21, hr⟩ : ∃ b r2 : Int, 0 ≤ b ∧ b ≤ 3 ∧ 0 ≤ r2 ∧
      (r2 < 36524 ∨ (b = 3 ∧ r2 = 36524)) ∧ r = 36524 * b + r2 := by
    by_cases h : r = 146096
    · exact ⟨3, 36524, by omega, by omega, by omega, by omega, by omega⟩
    · exact ⟨r / 36524, r % 36524, by omega, by omega, by omega, by omega, by omega⟩
  -- the 4-year cycle within the century
  obtain ⟨c, r3, hc0, hc, hr30, hr31, hr2⟩ : ∃ c r3 : Int, 0 ≤ c ∧ c ≤ 24 ∧ 0 ≤ r3 ∧
      r3 < 1461 ∧ r2 = 1461 * c + r3 :=
    ⟨r2 / 1461, r2 % 1461, by omega, by omega, by omega, by omega, by omega⟩
  -- the year within the 4-year cycle
  obtain ⟨e, k, he0, he, hk0, hk1, hr3⟩ : ∃ e k : Int, 0 ≤ e ∧ e ≤ 3 ∧ 0 ≤ k ∧
      (k < 365 ∨ (e = 3 ∧ k = 365)) ∧ r3 = 365 * e + k := by
    by_cases h : r3 = 1460
    · exact ⟨3, 365, by omega, by omega, by omega, by omega, by omega⟩
    · exact ⟨r3 / 365, r3 % 365, by omega, by omega, by omega, by omega, by omega⟩
  refine ⟨1 + 400 * a + 100 * b + 4 * c + e, k, hk0, ?_, ?_⟩
  · rw [isLeap_split a b c e hb0 hb hc0 hc he0 he]
    by_cases hl : e = 3 ∧ (c ≠ 24 ∨ b = 3)
    · rw [decide_eq_true hl, if_pos rfl]
      omega
    · rw [decide_eq_false hl, if_neg (by simp)]
      have hl2 : e ≠ 3 ∨ (c = 24 ∧ b ≠ 3) := by tauto
      omega
  · rw [daysSinceEpoch_split a b c e hb0 hb hc0 hc he0 he]
    omega

theorem monthOfDay_eq (m day : Int) (hm1 : 1 ≤ m) (hm : m ≤ 12)
    (h0 : daysBefore (m - 1) ≤ day) (h1 : day < daysBefore m) :
    monthOfDay day = (m, day - daysBefore (m - 1) + 1) := by
  have hm2 : m = 1 ∨ m = 2 ∨ m = 3 ∨ m = 4 ∨ m = 5 ∨ m = 6 ∨ m = 7 ∨ m = 8 ∨ m = 9 ∨
      m = 10 ∨ m = 11 ∨ m = 12 := by omega
  rcases hm2 with h | h | h | h | h | h | h | h | h | h | h | h <;>
    subst h <;>
    norm_num [daysBefore] at h0 h1 ⊢ <;>
    (have hq : day / 31 = 0 ∨ day / 31 = 1 ∨ day / 31 = 2 ∨ day / 31 = 3 ∨ day / 31 = 4 ∨
        day / 31 = 5 ∨ day / 31 = 6 ∨ day / 31 = 7 ∨ day / 31 = 8 ∨ day / 31 = 9 ∨
        day / 31 = 10 ∨ day / 31 = 11 := by omega) <;>
    rcases hq with hq | hq | hq | hq | hq | hq | hq | hq | hq | hq | hq | hq <;>
    (first
      | (exfalso; omega)
      | (simp only [monthOfDay, hq]
         norm_num [daysBefore]
         try omega))

theorem month_cases (m : Int) (hm1 : 1 ≤ m) (hm : m ≤ 12) :
    m = 1 ∨ m = 2 ∨ m = 3 ∨ m = 4 ∨ m = 5 ∨ m = 6 ∨ m = 7 ∨ m = 8 ∨ m = 9 ∨
      m = 10 ∨ m = 11 ∨ m = 12 := by omega

/-- The months tile the year: the first day of month `m`, its length, and the
first day of the next month (or the length of the year, after December). -/
theorem firstOfMonth_facts (year m : Int) (hm1 : 1 ≤ m) (hm : m ≤ 12) :
    0 ≤ firstOfMonth year m ∧ 28 ≤ daysIn m year ∧ daysIn m year ≤ 31 ∧
      (m ≤ 11 → firstOfMonth year (m + 1) = firstOfMonth year m + daysIn m year) ∧
      (m = 12 → firstOfMonth year m + daysIn m year
        = 365 + (if isLeap year then 1 else 0)) ∧
      firstOfMonth year m + daysIn m year ≤ 365 + (if isLeap year then 1 else 0) ∧
      (isLeap year = false → firstOfMonth year m = daysBefore (m - 1)) ∧
      (isLeap year = false → daysIn m year = daysBefore m - daysBefore (m - 1)) := by
  cases hl : isLeap year <;>
    rcases month_cases m hm1 hm with h | h | h | h | h | h | h | h | h | h | h | h <;>
    subst h <;>
    norm_num [firstOfMonth, daysIn, daysBefore, hl]

theorem daysBefore_ge (m : Int) (hm3 : 3 ≤ m) (hm : m ≤ 12) : 59 ≤ daysBefore (m - 1) := by
  rcases month_cases m (by omega) hm with h | h | h | h | h | h | h | h | h | h | h | h <;>
    subst h <;> norm_num [daysBefore] at hm3 ⊢

theorem monthDay_leap (year yday : Int) (hl : isLeap year = true) :
    monthDay year yday = if yday = 59 then (2, 29)
      else monthOfDay (if yday > 59 then yday - 1 else yday) := by
  simp [monthDay, hl]

theorem monthDay_firstOfMonth (year m j : Int) (hm1 : 1 ≤ m) (hm : m ≤ 12) (hj0 : 0 ≤ j)
    (hj : j < daysIn m year) :
    monthDay year (firstOfMonth year m + j) = (m, j + 1) := by
  cases hl : isLeap year
  · obtain ⟨-, -, -, -, -, -, hf, hd⟩ := firstOfMonth_facts year m hm1 hm
    rw [hf hl]
    rw [hd hl] at hj
    simp only [monthDay, hl, Bool.false_and, Bool.false_eq_true, if_false]
    rw [monthOfDay_eq m _ hm1 hm (by omega) (by omega)]
    ext <;> simp
  · rw [monthDay_leap year _ hl]
    have hm3 : m = 1 ∨ m = 2 ∨ 3 ≤ m := by omega
    rcases hm3 with h | h | h
    · subst h
      norm_num [daysIn, daysBefore, hl] at hj
      norm_num [firstOfMonth, daysBefore]
      rw [if_neg (by omega), if_neg (by omega),
        monthOfDay_eq 1 j (by norm_num) (by norm_num) (by norm_num [daysBefore]; omega)
          (by norm_num [daysBefore]; omega)]
      norm_num [daysBefore]
    · subst h
      norm_num [daysIn, daysBefore, hl] at hj
      norm_num [firstOfMonth, daysBefore]
      by_cases h28 : j = 28
      · subst h28
        norm_num
      · rw [if_neg (by omega), if_neg (by omega),
          monthOfDay_eq 2 (31 + j) (by norm_num) (by norm_num) (by norm_num [daysBefore]; omega)
            (by norm_num [daysBefore]; omega)]
        norm_num [daysBefore]
    · have h59 := daysBefore_ge m h hm
      have hf : firstOfMonth year m = daysBefore (m - 1) + 1 := by
        simp [firstOfMonth, hl, h]
      have hd : daysIn m year = daysBefore m - daysBefore (m - 1) := by
        have h2 : m ≠ 2 := by omega
        simp [daysIn, h2]
      rw [hf, if_neg (by omega), if_pos (by omega)]
      rw [hd] at hj
      rw [monthOfDay_eq m _ hm1 hm (by omega) (by omega)]
      ext <;> simp
      omega

/-- The calendar date of day `j` (zero-based) of month `m` of `year`. -/
theorem absDate_firstOfMonth (year m j : Int) (hm1 : 1 ≤ m) (hm : m ≤ 12) (hj0 : 0 ≤ j)
    (hj : j < daysIn m year) :
    absDate (daysSinceEpoch year + firstOfMonth year m + j) = (year, m, j + 1) := by
  obtain ⟨hf0, -, -, -, -, hle, -, -⟩ := firstOfMonth_facts year m hm1 hm
  have h := absYear_daysSinceEpoch year (firstOfMonth year m + j) (by omega) (by omega)
  rw [Int.add_assoc]
  simp only [absDate, h, monthDay_firstOfMonth year m j hm1 hm hj0 hj]

theorem daysSinceEpoch_succ (year : Int) :
    daysSinceEpoch (year + 1) = daysSinceEpoch year + 365 + (if isLeap year then 1 else 0) := by
  obtain ⟨a, b, c, e, hb0, hb, hc0, hc, he0, he, rfl⟩ := year_split year
  rw [isLeap_split a b c e hb0 hb hc0 hc he0 he,
    daysSinceEpoch_split a b c e hb0 hb hc0 hc he0 he]
  by_cases h3 : e = 3
  · subst h3
    by_cases h24 : c = 24
    · subst h24
      by_cases hb3 : b = 3
      · subst hb3
        have hy : 1 + 400 * a + 100 * 3 + 4 * 24 + 3 + 1
            = 1 + 400 * (a + 1) + 100 * 0 + 4 * 0 + 0 := by ring
        rw [hy, daysSinceEpoch_split (a + 1) 0 0 0 (by omega) (by omega) (by omega) (by omega)
          (by omega) (by omega)]
        norm_num
        ring
      · have hy : 1 + 400 * a + 100 * b + 4 * 24 + 3 + 1
            = 1 + 400 * a + 100 * (b + 1) + 4 * 0 + 0 := by ring
        rw [hy, daysSinceEpoch_split a (b + 1) 0 0 (by omega) (by omega) (by omega) (by omega)
          (by omega) (by omega)]
        simp [hb3]
        ring
    · have hy : 1 + 400 * a + 100 * b + 4 * c + 3 + 1
          = 1 + 400 * a + 100 * b + 4 * (c + 1) + 0 := by ring
      rw [hy, daysSinceEpoch_split a b (c + 1) 0 hb0 hb (by omega) (by omega)
        (by omega) (by omega)]
      simp [h24]
      ring
  · have hy : 1 + 400 * a + 100 * b + 4 * c + e + 1
        = 1 + 400 * a + 100 * b + 4 * c + (e + 1) := by ring
    rw [hy, daysSinceEpoch_split a b c (e + 1) hb0 hb hc0 hc (by omega) (by omega)]
    simp [h3]
    ring

theorem exists_month (day : Int) (h0 : 0 ≤ day) (h1 : day < 365) :
    ∃ m : Int, 1 ≤ m ∧ m ≤ 12 ∧ daysBefore (m - 1) ≤ day ∧ day < daysBefore m := by
  have h : day < 31 ∨ (31 ≤ day ∧ day < 59) ∨ (59 ≤ day ∧ day < 90) ∨
      (90 ≤ day ∧ day < 120) ∨ (120 ≤ day ∧ day < 151) ∨ (151 ≤ day ∧ day < 181) ∨
      (181 ≤ day ∧ day < 212) ∨ (212 ≤ day ∧ day < 243) ∨ (243 ≤ day ∧ day < 273) ∨
      (273 ≤ day ∧ day < 304) ∨ (304 ≤ day ∧ day < 334) ∨ 334 ≤ day := by omega
  rcases h with h | h | h | h | h | h | h | h | h | h | h | h
  · exact ⟨1, by norm_num, by norm_num, by norm_num [daysBefore]; omega,
      by norm_num [daysBefore]; omega⟩
  · exact ⟨2, by norm_num, by norm_num, by norm_num [daysBefore]; omega,
      by norm_num [daysBefore]; omega⟩
  · exact ⟨3, by norm_num, by norm_num, by norm_num [daysBefore]; omega,
      by norm_num [daysBefore]; omega⟩
  · exact ⟨4, by norm_num, by norm_num, by norm_num [daysBefore]; omega,
      by norm_num [daysBefore]; omega⟩
  · exact ⟨5, by norm_num, by norm_num, by norm_num [daysBefore]; omega,
      by norm_num [daysBefore]; omega⟩
  · exact ⟨6, by norm_num, by norm_num, by norm_num [daysBefore]; omega,
      by norm_num [daysBefore]; omega⟩
  · exact ⟨7, by norm_num, by norm_num, by norm_num [daysBefore]; omega,
      by norm_num [daysBefore]; omega⟩
  · exact ⟨8, by norm_num, by norm_num, by norm_num [daysBefore]; omega,
      by norm_num [daysBefore]; omega⟩
  · exact ⟨9, by norm_num, by norm_num, by norm_num [daysBefore]; omega,
      by norm_num [daysBefore]; omega⟩
  · exact ⟨10, by norm_num, by norm_num, by norm_num [daysBefore]; omega,
      by norm_num [daysBefore]; omega⟩
  · exact ⟨11, by norm_num, by norm_num, by norm_num [daysBefore]; omega,
      by norm_num [daysBefore]; omega⟩
  · exact ⟨12, by norm_num, by norm_num, by norm_num [daysBefore]; omega,
      by norm_num [daysBefore]; omega⟩

theorem monthOfDay_range (day : Int) (h0 : 0 ≤ day) (h1 : day < 365) :
    1 ≤ (monthOfDay day).1 ∧ (monthOfDay day).1 ≤ 12 := by
  obtain ⟨m, hm1, hm, hlo, hhi⟩ := exists_month day h0 h1
  rw [monthOfDay_eq m day hm1 hm hlo hhi]
  exact ⟨hm1, hm⟩

theorem monthDay_range (year k : Int) (h0 : 0 ≤ k)
    (h1 : k < 365 + (if isLeap year then 1 else 0)) :
    1 ≤ (monthDay year k).1 ∧ (monthDay year k).1 ≤ 12 := by
  cases hl : isLeap year
  · rw [hl] at h1
    simp only [monthDay, hl, Bool.false_and, Bool.false_eq_true, if_false]
    exact monthOfDay_range k h0 (by simpa using h1)
  · rw [hl] at h1
    rw [monthDay_leap year k hl]
    have h1b : k < 366 := by simpa using h1
    by_cases h59 : k = 59
    · rw [if_pos h59]; norm_num
    · rw [if_neg h59]
      by_cases hgt : k > 59
      · rw [if_pos hgt]; exact monthOfDay_range _ (by omega) (by omega)
      · rw [if_neg hgt]; exact monthOfDay_range _ (by omega) (by omega)

/-- The month that a Time shows is one of the twelve. -/
theorem Time.Month_range (t : Time) : 1 ≤ t.Month ∧ t.Month ≤ 12 := by
  obtain ⟨year, k, hk0, hk1, hd⟩ := exists_year t.absDays
  simp only [Time.Month, absDate, hd, absYear_daysSinceEpoch year k hk0 hk1]
  exact monthDay_range year k hk0 hk1

theorem norm_of_range (hi lo base : Int) (h0 : 0 ≤ lo) (h1 : lo < base) :
    norm hi lo base = (hi, lo) := by
  simp only [norm, if_neg (not_lt.mpr h0), ge_iff_le, if_neg (not_le.mpr h1)]

/-- The day number of a `Date` at midnight UTC with a month in range. -/
theorem Date_absDays (year m day : Int) (hm1 : 1 ≤ m) (hm : m ≤ 12) :
    (Date year m day 0 0 0 UTC).absDays
      = daysSinceEpoch year + firstOfMonth year m + (day - 1) := by
  have hn : norm year (m - 1) 12 = (year, m - 1) := norm_of_range _ _ _ (by omega) (by omega)
  have h60 : norm 0 0 60 = (0, 0) := norm_of_range _ _ _ (by omega) (by omega)
  have h24 : norm day 0 24 = (day, 0) := norm_of_range _ _ _ (by omega) (by omega)
  have hmm : m - 1 + 1 = m := by ring
  simp only [Date, hn, h60, h24, hmm, Time.absDays, UTC, secondsPerDay, unixEpochDays,
    firstOfMonth]
  omega

/-- Month 13 of a year is January of the next. -/
theorem Date_month13 (year day : Int) :
    Date year 13 day 0 0 0 UTC = Date (year + 1) 1 day 0 0 0 UTC := by
  have hn : norm year (13 - 1) 12 = (year + 1, 0) := by
    norm_num [norm]
  have hn1 : norm (year + 1) (1 - 1) 12 = (year + 1, 0) := by
    norm_num [norm]
  simp only [Date, hn, hn1]

/-- A `Date` at midnight UTC has a zero clock. -/
theorem Date_clock (year m day : Int) :
    ((Date year m day 0 0 0 UTC).sec + (Date year m day 0 0 0 UTC).offset) % secondsPerDay = 0
      ∧ (Date year m day 0 0 0 UTC).offset = UTC := by
  have h60 : norm 0 0 60 = (0, 0) := norm_of_range _ _ _ (by omega) (by omega)
  have h24 : norm day 0 24 = (day, 0) := norm_of_range _ _ _ (by omega) (by omega)
  simp only [Date, h60, h24, UTC, secondsPerDay, unixEpochDays]
  refine ⟨?_, trivial⟩
  omega

/-! ### The date range -/

theorem startOfMonth_absDays (current : Time) :
    (startOfMonth current).absDays
      = daysSinceEpoch current.Year + firstOfMonth current.Year current.Month := by
  obtain ⟨hm1, hm⟩ := current.Month_range
  rw [startOfMonth, Date_absDays _ _ _ hm1 hm]
  omega

theorem startOfMonth_absDate (current : Time) :
    absDate (startOfMonth current).absDays = (current.Year, current.Month, 1) := by
  obtain ⟨hm1, hm⟩ := current.Month_range
  obtain ⟨-, h28, -⟩ := firstOfMonth_facts current.Year current.Month hm1 hm
  have h := absDate_firstOfMonth current.Year current.Month 0 hm1 hm (by omega) (by omega)
  rw [startOfMonth_absDays]
  simpa using h

/-- `AddDate` on a Time at midnight UTC. -/
theorem AddDate_midnight (t : Time) (years months days : Int)
    (hclock : (t.sec + t.offset) % secondsPerDay = 0) (hoff : t.offset = UTC) :
    t.AddDate years months days
      = Date (t.Year + years) (t.Month + months) (t.Day + days) 0 0 0 UTC := by
  rw [hoff] at hclock
  simp only [Time.AddDate, hoff, hclock]
  norm_num

theorem endOfMonth_eq (current : Time) :
    endOfMonth current = Date current.Year (current.Month + 1) 0 0 0 0 UTC := by
  have hc : ((startOfMonth current).sec + (startOfMonth current).offset) % secondsPerDay = 0
      ∧ (startOfMonth current).offset = UTC := Date_clock current.Year current.Month 1
  have hd := startOfMonth_absDate current
  have hY : (startOfMonth current).Year = current.Year := by simp only [Time.Year, hd]
  have hM : (startOfMonth current).Month = current.Month := by simp only [Time.Month, hd]
  have hD : (startOfMonth current).Day = 1 := by simp only [Time.Day, hd]
  rw [endOfMonth, AddDate_midnight _ _ _ _ hc.1 hc.2, hY, hM, hD]
  norm_num

theorem endOfMonth_absDays (current : Time) :
    (endOfMonth current).absDays
      = daysSinceEpoch current.Year + firstOfMonth current.Year current.Month
        + (daysIn current.Month current.Year - 1) := by
  obtain ⟨hm1, hm⟩ := current.Month_range
  obtain ⟨-, -, -, hnext, hdec, -, -, -⟩ :=
    firstOfMonth_facts current.Year current.Month hm1 hm
  rw [endOfMonth_eq]
  by_cases h12 : current.Month = 12
  · rw [h12] at hdec ⊢
    have e13 : (12 : Int) + 1 = 13 := by norm_num
    rw [e13, Date_month13, Date_absDays _ _ _ (by norm_num) (by norm_num),
      daysSinceEpoch_succ]
    have hf1 : firstOfMonth (current.Year + 1) 1 = 0 := by
      norm_num [firstOfMonth, daysBefore]
    rw [hf1]
    have := hdec rfl
    omega
  · rw [Date_absDays _ _ _ (by omega) (by omega), hnext (by omega)]
    omega

theorem endOfMonth_absDate (current : Time) :
    absDate (endOfMonth current).absDays
      = (current.Year, current.Month, daysIn current.Month current.Year) := by
  obtain ⟨hm1, hm⟩ := current.Month_range
  obtain ⟨-, h28, -⟩ := firstOfMonth_facts current.Year current.Month hm1 hm
  have h := absDate_firstOfMonth current.Year current.Month
    (daysIn current.Month current.Year - 1) hm1 hm (by omega) (by omega)
  rw [endOfMonth_absDays, h]
  norm_num

/-- The day after the end date is the first day of the next month. -/
theorem endOfMonth_next_absDate (current : Time) :
    absDate ((endOfMonth current).AddDate 0 0 1).absDays
      = (if current.Month = 12 then current.Year + 1 else current.Year,
         if current.Month = 12 then 1 else current.Month + 1, 1) := by
  obtain ⟨hm1, hm⟩ := current.Month_range
  obtain ⟨-, -, -, hnext, hdec, -, -, -⟩ :=
    firstOfMonth_facts current.Year current.Month hm1 hm
  have hclock : ((endOfMonth current).sec + (endOfMonth current).offset) % secondsPerDay = 0
      ∧ (endOfMonth current).offset = UTC := by
    rw [endOfMonth_eq]; exact Date_clock _ _ _
  have hd := endOfMonth_absDate current
  have hY : (endOfMonth current).Year = current.Year := by simp only [Time.Year, hd]
  have hM : (endOfMonth current).Month = current.Month := by simp only [Time.Month, hd]
  have hD : (endOfMonth current).Day = daysIn current.Month current.Year := by
    simp only [Time.Day, hd]
  rw [AddDate_midnight _ _ _ _ hclock.1 hclock.2, hY, hM, hD]
  rw [Int.add_zero, Int.add_zero, Date_absDays _ _ _ hm1 hm]
  by_cases h12 : current.Month = 12
  · rw [if_pos h12, if_pos h12]
    have h365 := hdec h12
    obtain ⟨-, h28, -⟩ := firstOfMonth_facts (current.Year + 1) 1 (by norm_num) (by norm_num)
    have h := absDate_firstOfMonth (current.Year + 1) 1 0 (by norm_num) (by norm_num)
      (by omega) (by omega)
    have hf1 : firstOfMonth (current.Year + 1) 1 = 0 := by
      norm_num [firstOfMonth, daysBefore]
    rw [hf1, daysSinceEpoch_succ] at h
    have e : daysSinceEpoch current.Year + firstOfMonth current.Year current.Month
        + (daysIn current.Month current.Year + 1 - 1)
        = daysSinceEpoch current.Year + 365 + (if isLeap current.Year then 1 else 0) + 0 + 0 := by
      omega
    rw [e, h]
    norm_num
  · rw [if_neg h12, if_neg h12]
    obtain ⟨-, h28, -⟩ := firstOfMonth_facts current.Year (current.Month + 1)
      (by omega) (by omega)
    have h := absDate_firstOfMonth current.Year (current.Month + 1) 0 (by omega) (by omega)
      (by omega) (by omega)
    rw [hnext (by omega)] at h
    have e : daysSinceEpoch current.Year + firstOfMonth current.Year current.Month
        + (daysIn current.Month current.Year + 1 - 1)
        = daysSinceEpoch current.Year
          + (firstOfMonth current.Year current.Month + daysIn current.Month current.Year)
          + 0 := by
      omega
    rw [e, h]
    norm_num

/-- C5: for every reading of the clock, `getStartAndEndDates` returns the
formatted start and end dates, where the start date is day 1 of its month and
the end date is the last calendar day of the same year and month: its day is
the length of that month, and one day later the month is a different one (and
the day is 1).  The instances are February 2023 (28 days), February 2024
(29 days), April 2024 (30 days) and December 2024 (31 days, followed by
January 2025). -/
theorem C5_end_is_last_day_of_month (w : World) :
    (getStartAndEndDates w).2
        = ((startOfMonth w.now).Format, (endOfMonth w.now).Format) ∧
      (startOfMonth w.now).Day = 1 ∧
      (endOfMonth w.now).Year = (startOfMonth w.now).Year ∧
      (endOfMonth w.now).Month = (startOfMonth w.now).Month ∧
      (endOfMonth w.now).Day = daysIn (startOfMonth w.now).Month (startOfMonth w.now).Year ∧
      ((endOfMonth w.now).AddDate 0 0 1).Month ≠ (endOfMonth w.now).Month ∧
      ((endOfMonth w.now).AddDate 0 0 1).Day = 1 ∧
      (getStartAndEndDates (worldAt ⟨1676462400, 0⟩)).2 = ("2023-02-01", "2023-02-28") ∧
      (getStartAndEndDates (worldAt ⟨1707998400, 0⟩)).2 = ("2024-02-01", "2024-02-29") ∧
      (getStartAndEndDates (worldAt ⟨1713182400, 0⟩)).2 = ("2024-04-01", "2024-04-30") ∧
      (getStartAndEndDates (worldAt ⟨1734264000, 0⟩)).2 = ("2024-12-01", "2024-12-31") ∧
      ((endOfMonth ⟨1734264000, 0⟩).AddDate 0 0 1).Format = "2025-01-01" := by
  have hs := startOfMonth_absDate w.now
  have he := endOfMonth_absDate w.now
  have hn := endOfMonth_next_absDate w.now
  obtain ⟨hm1, hm⟩ := w.now.Month_range
  refine ⟨rfl, ?_, ?_, ?_, ?_, ?_, ?_, by decide, by decide, by decide, by decide, by decide⟩
  · simp only [Time.Day, hs]
  · simp only [Time.Year, hs, he]
  · simp only [Time.Month, hs, he]
  · simp only [Time.Day, Time.Month, Time.Year, hs, he]
  · have h1 : ((endOfMonth w.now).AddDate 0 0 1).Month
        = if w.now.Month = 12 then 1 else w.now.Month + 1 := by
      simp only [Time.Month, hn]
    have h2 : (endOfMonth w.now).Month = w.now.Month := by
      simp only [Time.Month, he]
    rw [h1, h2]
    split <;> omega
  · simp only [Time.Day, hn]

/-- C6, refuted: at 2024-01-31 23:30:00 UTC with a local zone one hour east of
UTC, the month that contains "now" in UTC is January 2024, but the range
returned is February 2024. -/
theorem C6_start_is_not_the_utc_month :
    (Time.UTC ⟨1706743800, 3600⟩).Format = "2024-01-31" ∧
      (getStartAndEndDates (worldAt ⟨1706743800, 3600⟩)).2 = ("2024-02-01", "2024-02-29") ∧
      (startOfMonth ⟨1706743800, 3600⟩).Month ≠ (Time.UTC ⟨1706743800, 3600⟩).Month ∧
      (endOfMonth ⟨1706743800, 3600⟩).Month ≠ (Time.UTC ⟨1706743800, 3600⟩).Month := by
  decide

/-- C6, amended: for every reading of the clock, the start date is day 1, at
00:00:00 UTC, of the month that contains "now" in the local zone of the
process (the zone of the value `time.Now()` returns), and the end date is the
last day of that same month. -/
theorem C6_range_is_the_local_month (w : World) :
    (getStartAndEndDates w).2
        = ((startOfMonth w.now).Format, (endOfMonth w.now).Format) ∧
      (startOfMonth w.now).Year = w.now.Year ∧
      (startOfMonth w.now).Month = w.now.Month ∧
      (startOfMonth w.now).Day = 1 ∧
      (startOfMonth w.now).offset = UTC ∧
      (startOfMonth w.now).sec % secondsPerDay = 0 ∧
      (endOfMonth w.now).Year = w.now.Year ∧
      (endOfMonth w.now).Month = w.now.Month ∧
      (endOfMonth w.now).Day = daysIn w.now.Month w.now.Year := by
  have hs := startOfMonth_absDate w.now
  have he := endOfMonth_absDate w.now
  have hc : ((startOfMonth w.now).sec + (startOfMonth w.now).offset) % secondsPerDay = 0
      ∧ (startOfMonth w.now).offset = UTC := Date_clock w.now.Year w.now.Month 1
  refine ⟨rfl, ?_, ?_, ?_, hc.2, ?_, ?_, ?_, ?_⟩
  · simp only [Time.Year, hs]
  · simp only [Time.Month, hs]
  · simp only [Time.Day, hs]
  · have h := hc.1
    rw [hc.2] at h
    simpa [UTC] using h
  · simp only [Time.Year, he]
  · simp only [Time.Month, he]
  · simp only [Time.Day, he]

/-! ### The report -/

theorem Float64.ratio_zero (e : Int) : (Float64.ratio 0 e).1 = 0 := by
  simp only [Float64.ratio, Float64.scaled]
  split <;> simp

/-- A value with a clear sign bit is not below zero. -/
theorem Float64.lt_zero_of_positive (m : Nat) (e : Int) :
    Float64.lt (.fin false m e) (Float64.zero false) = false := by
  simp only [Float64.lt, Float64.zero, Float64.ratio_zero]
  simp only [Bool.false_eq_true, if_false, Nat.zero_mul, Int.one_mul, decide_eq_false_iff_not,
    not_lt]
  exact Int.ofNat_nonneg _

/-- What is printed after "Over by" or "Down by" is never below zero. -/
theorem Float64.printed_magnitude (delta : Float64) :
    (Float64.ge delta (Float64.zero false) = true →
        Float64.lt delta (Float64.zero false) = false) ∧
      (Float64.ge delta (Float64.zero false) = false →
        Float64.lt (Float64.neg delta) (Float64.zero false) = false) := by
  cases delta with
  | nan => exact ⟨fun _ => rfl, fun _ => rfl⟩
  | inf s => cases s <;> exact ⟨by decide, by decide⟩
  | fin s m e =>
    have hge : Float64.ge (.fin s m e) (Float64.zero false)
        = !Float64.lt (.fin s m e) (Float64.zero false) := rfl
    cases s with
    | false =>
      refine ⟨fun _ => Float64.lt_zero_of_positive m e, fun h => ?_⟩
      rw [hge, Float64.lt_zero_of_positive m e] at h
      exact absurd h (by decide)
    | true =>
      refine ⟨fun h => ?_, fun _ => Float64.lt_zero_of_positive m e⟩
      rw [hge] at h
      simpa using h

theorem Float64.ratio_snd_pos (m : Nat) (e : Int) : 0 < (Float64.ratio m e).2 := by
  simp only [Float64.ratio, Float64.scaled]
  split
  · simp only [Nat.one_mul]; exact Nat.pow_pos (by decide)
  · exact Nat.one_pos

theorem Float64.ratio_fst_eq_zero (m : Nat) (e : Int) (h : (Float64.ratio m e).1 = 0) :
    m = 0 := by
  simp only [Float64.ratio, Float64.scaled] at h
  split at h
  · exact h
  · rcases Nat.mul_eq_zero.mp h with h | h
    · exact h
    · exact absurd h (Nat.pos_iff_ne_zero.mp (Nat.pow_pos (by decide)))

/-- A value with its sign bit set that is not below zero is a negative zero. -/
theorem Float64.negative_zero_of_ge (m : Nat) (e : Int)
    (h : Float64.ge (.fin true m e) (Float64.zero false) = true) : m = 0 := by
  have hge : Float64.ge (.fin true m e) (Float64.zero false)
      = !Float64.lt (.fin true m e) (Float64.zero false) := rfl
  rw [hge] at h
  simp only [Float64.lt, Float64.zero, Float64.ratio_zero, Bool.not_eq_true',
    decide_eq_false_iff_not, not_lt, if_true, Bool.false_eq_true, if_false, Nat.zero_mul] at h
  have hpos := Float64.ratio_snd_pos 0 (-1074)
  apply Float64.ratio_fst_eq_zero m e
  by_contra hne
  have h1 : 0 < (Float64.ratio m e).1 * (Float64.ratio 0 (-1074)).2 :=
    Nat.mul_pos (Nat.pos_of_ne_zero hne) hpos
  have h2 : (0 : Int) < (((Float64.ratio m e).1 * (Float64.ratio 0 (-1074)).2 : Nat) : Int) :=
    Int.ofNat_lt.mpr h1
  simp only [Nat.cast_zero, Int.one_mul] at h
  omega

theorem digitChar_ne_minus (d : Nat) (h : d < 10) : Nat.digitChar d ≠ '-' := by
  interval_cases d <;> decide

/-- The decimal digits of a natural start with a digit. -/
theorem toDigitsCore_head (fuel : Nat) :
    ∀ (n : Nat) (ds : List Char), ∃ d rest, d < 10 ∧
      Nat.toDigitsCore 10 (fuel + 1) n ds = Nat.digitChar d :: rest := by
  induction fuel with
  | zero =>
    intro n ds
    refine ⟨n % 10, ds, Nat.mod_lt _ (by decide), ?_⟩
    simp only [Nat.toDigitsCore]
    split <;> rfl
  | succ fuel ih =>
    intro n ds
    by_cases h : n / 10 = 0
    · refine ⟨n % 10, ds, Nat.mod_lt _ (by decide), ?_⟩
      rw [Nat.toDigitsCore]
      simp only [h, if_true]
    · obtain ⟨d, rest, hd, hr⟩ := ih (n / 10) (Nat.digitChar (n % 10) :: ds)
      refine ⟨d, rest, hd, ?_⟩
      rw [Nat.toDigitsCore]
      simp only [h, if_false]
      exact hr

theorem toString_nat_head (k : Nat) (tail : List Char) :
    ∃ d rest, d < 10 ∧ (toString k).data ++ tail = Nat.digitChar d :: rest := by
  obtain ⟨d, rest, hd, hr⟩ := toDigitsCore_head k k []
  refine ⟨d, rest ++ tail, hd, ?_⟩
  have e : (toString k).data = Nat.toDigitsCore 10 (k + 1) k [] := rfl
  rw [e, hr]
  rfl

/-- The text of a value with a clear sign bit does not start with a minus. -/
theorem Float64.format2_positive (m : Nat) (e : Int) :
    startsWithMinus (Float64.format2 (.fin false m e)) = false := by
  obtain ⟨d, rest, hd, hr⟩ := toString_nat_head (Float64.hundredths m e / 100)
    (".".data ++ (toString (Float64.hundredths m e % 100 / 10)).data
      ++ (toString (Float64.hundredths m e % 10)).data)
  have hdata : (Float64.format2 (.fin false m e)).data = Nat.digitChar d :: rest := by
    rw [← hr]
    simp only [Float64.format2, Bool.false_eq_true, if_false, String.data_append]
    simp only [List.append_assoc]
    rfl
  simp only [startsWithMinus, hdata]
  exact beq_false_of_ne (digitChar_ne_minus d hd)

/-- The text printed after "Over by" starts with a minus only for a negative
zero; the text printed after "Down by" never does. -/
theorem Float64.printed_text (delta : Float64) :
    (Float64.ge delta (Float64.zero false) = true →
        startsWithMinus (Float64.format2 delta) = true → ∃ e, delta = .fin true 0 e) ∧
      (Float64.ge delta (Float64.zero false) = false →
        startsWithMinus (Float64.format2 (Float64.neg delta)) = false) := by
  cases delta with
  | nan => exact ⟨fun h => absurd h (by decide), fun _ => by decide⟩
  | inf s =>
    cases s with
    | false => exact ⟨fun _ h => absurd h (by decide), fun h => absurd h (by decide)⟩
    | true => exact ⟨fun h => absurd h (by decide), fun _ => by decide⟩
  | fin s m e =>
    cases s with
    | false =>
      refine ⟨fun _ h => ?_, fun h => ?_⟩
      · rw [Float64.format2_positive] at h
        exact absurd h (by decide)
      · have hge : Float64.ge (.fin false m e) (Float64.zero false)
            = !Float64.lt (.fin false m e) (Float64.zero false) := rfl
        rw [hge, Float64.lt_zero_of_positive m e] at h
        exact absurd h (by decide)
    | true =>
      refine ⟨fun h _ => ?_, fun _ => Float64.format2_positive m e⟩
      have hm := Float64.negative_zero_of_ge m e h
      subst hm
      exact ⟨e, rfl⟩

/-- C7, refuted: for no day worked and a total of negative zero the status
line is "Over by -0.00 hours" in every build, so the printed magnitude carries
a minus sign.  The delta is not `h - n * 7.4` either: 5 days and 37 hours have
the exact delta 0, and a build that rounds the product first prints "Over by
0.00 hours" while a build that fuses lines 173-174 prints "Down by 0.00
hours"; 3 days and 22.2 hours print 22.20 worked, 22.20 expected and "Down by
0.00 hours" in every build. -/
theorem C7_minus_sign_and_rounding :
    (∀ fused, logResult fused 0 (Float64.zero true) =
        [Event.stdout "Days worked: 0\n", Event.stdout "Hours worked: -0.00\n",
         Event.stdout "Expected hours: 0.00\n",
         Event.stdout "Status: Over by -0.00 hours\n"]) ∧
      startsWithMinus (Float64.format2 (reportDelta false 0 (Float64.zero true))) = true ∧
      (Float64.ofInt 37).toRat - 5 * (74 / 10) = 0 ∧
      logResult false 5 (Float64.ofInt 37) =
        [Event.stdout "Days worked: 5\n", Event.stdout "Hours worked: 37.00\n",
         Event.stdout "Expected hours: 37.00\n",
         Event.stdout "Status: Over by 0.00 hours\n"] ∧
      logResult true 5 (Float64.ofInt 37) =
        [Event.stdout "Days worked: 5\n", Event.stdout "Hours worked: 37.00\n",
         Event.stdout "Expected hours: 37.00\n",
         Event.stdout "Status: Down by 0.00 hours\n"] ∧
      (∀ fused, logResult fused 3 (Float64.ofRatio false 222 10) =
        [Event.stdout "Days worked: 3\n", Event.stdout "Hours worked: 22.20\n",
         Event.stdout "Expected hours: 22.20\n",
         Event.stdout "Status: Down by 0.00 hours\n"]) := by
  have h37 : Float64.ofInt 37 = .fin false 5207287069147136 (-47) := by decide
  refine ⟨by decide, by decide, ?_, by decide, by decide, by decide⟩
  rw [h37]
  norm_num [Float64.toRat]

/-- C7, amended: for every `daysWorked` and `totalHoursWorked`, and whether or
not the build fuses lines 173-174, `logResult` prints the four lines of the
report.  The expected hours are the `float64` product `7.4 * float64(n)`; the
delta is `h - 7.4 * float64(n)` in `float64`, the product rounded first or
fused into the subtraction.  The status line is "Over by" followed by the
delta when `delta >= 0`, and otherwise "Down by" followed by the negated
delta.  The value printed is not below zero, and its text starts with a minus
sign only after "Over by" and only for a delta that is a negative zero.  In
every build, n = 20, h = 150 shows 148.00 expected and "Over by 2.00 hours";
n = 20, h = 140 shows "Down by 8.00 hours"; n = 2, h = 15.5 shows 14.80
expected and "Over by 0.70 hours". -/
theorem C7_report_status_float64 (fused : Bool) (n : Int) (h : Float64) :
    logResult fused n h =
        [Event.stdout ("Days worked: " ++ toString n ++ "\n"),
         Event.stdout ("Hours worked: " ++ Float64.format2 h ++ "\n"),
         Event.stdout ("Expected hours: "
           ++ Float64.format2 (Float64.mul expectedWorkHoursPerDay (Float64.ofInt n)) ++ "\n"),
         Event.stdout (statusLine (reportDelta fused n h))] ∧
      reportDelta false n h
        = Float64.sub h (Float64.mul expectedWorkHoursPerDay (Float64.ofInt n)) ∧
      reportDelta true n h
        = Float64.fma (Float64.neg expectedWorkHoursPerDay) (Float64.ofInt n) h ∧
      (∀ delta : Float64, Float64.ge delta (Float64.zero false) = true →
        statusLine delta = "Status: Over by " ++ Float64.format2 delta ++ " hours\n" ∧
          Float64.lt delta (Float64.zero false) = false ∧
          (startsWithMinus (Float64.format2 delta) = true → ∃ e, delta = .fin true 0 e)) ∧
      (∀ delta : Float64, Float64.ge delta (Float64.zero false) = false →
        statusLine delta
            = "Status: Down by " ++ Float64.format2 (Float64.neg delta) ++ " hours\n" ∧
          Float64.lt (Float64.neg delta) (Float64.zero false) = false ∧
          startsWithMinus (Float64.format2 (Float64.neg delta)) = false) ∧
      (∀ b, logResult b 20 (Float64.ofInt 150) =
        [Event.stdout "Days worked: 20\n", Event.stdout "Hours worked: 150.00\n",
         Event.stdout "Expected hours: 148.00\n",
         Event.stdout "Status: Over by 2.00 hours\n"]) ∧
      (∀ b, logResult b 20 (Float64.ofInt 140) =
        [Event.stdout "Days worked: 20\n", Event.stdout "Hours worked: 140.00\n",
         Event.stdout "Expected hours: 148.00\n",
         Event.stdout "Status: Down by 8.00 hours\n"]) ∧
      (∀ b, logResult b 2 (Float64.ofRatio false 155 10) =
        [Event.stdout "Days worked: 2\n", Event.stdout "Hours worked: 15.50\n",
         Event.stdout "Expected hours: 14.80\n",
         Event.stdout "Status: Over by 0.70 hours\n"]) := by
  refine ⟨rfl, rfl, rfl, ?_, ?_, by decide, by decide, by decide⟩
  · intro delta hd
    exact ⟨by simp only [statusLine, hd, if_true], (Float64.printed_magnitude delta).1 hd,
      (Float64.printed_text delta).1 hd⟩
  · intro delta hd
    refine ⟨?_, (Float64.printed_magnitude delta).2 hd, (Float64.printed_text delta).2 hd⟩
    simp only [statusLine, hd]
    rfl

/-! ### The orchestration -/

/-- The events of `getCredentials` are prompts: no request, no report line. -/
theorem getCredentials_events (w : World) :
    ∀ e ∈ (getCredentials w).1,
      e.isAuthRequest = false ∧ e.isHoursRequest = false ∧ e.isReportLine = false := by
  have h1 : ∀ e ∈ [Event.stdout "Please enter your username:\n"],
      e.isAuthRequest = false ∧ e.isHoursRequest = false ∧ e.isReportLine = false := by
    decide
  have h2 : ∀ e ∈ [Event.stdout "Please enter your username:\n"]
      ++ [Event.stdout "Please enter your password:\n"],
      e.isAuthRequest = false ∧ e.isHoursRequest = false ∧ e.isReportLine = false := by
    decide
  have h3 : ∀ e ∈ [Event.stdout "Please enter your username:\n"]
      ++ [Event.stdout "Please enter your password:\n"] ++ [Event.stdout "\n"],
      e.isAuthRequest = false ∧ e.isHoursRequest = false ∧ e.isReportLine = false := by
    decide
  simp only [getCredentials]
  split
  · exact h1
  · split
    · exact h2
    · exact h3

/-- The only event of `getUserAuthToken` is its request. -/
theorem getUserAuthToken_events (w : World) (username password : String) :
    (getUserAuthToken w username password).1
      = [Event.authRequest (rubixxAuthUrl username password)] := by
  simp only [getUserAuthToken]
  split
  · rfl
  · split
    · rfl
    · split <;> rfl

theorem dateRange_not_reportLine (a b : String) :
    (Event.stdout ("Date range: " ++ a ++ " to " ++ b ++ "\n")).isReportLine = false := by
  have h : ("Date range: " ++ a ++ " to " ++ b ++ "\n").data
      = 'D' :: 'a' :: 't' :: ("e range: " ++ a ++ " to " ++ b ++ "\n").data := by
    simp only [String.data_append]
    rfl
  have hD : "Days worked: ".data = 'D' :: 'a' :: 'y' :: "s worked: ".data := rfl
  have hH : "Hours worked: ".data = 'H' :: "ours worked: ".data := rfl
  have hE : "Expected hours: ".data = 'E' :: "xpected hours: ".data := rfl
  have hS : "Status: ".data = 'S' :: "tatus: ".data := rfl
  have ne (c d : Char) (l m : List Char) (hcd : (c == d) = false) :
      (c :: l).isPrefixOf (d :: m) = false := by
    simp only [List.isPrefixOf, hcd, Bool.false_and]
  have eq (c : Char) (l m : List Char) :
      (c :: l).isPrefixOf (c :: m) = l.isPrefixOf m := by
    simp only [List.isPrefixOf, beq_self_eq_true, Bool.true_and]
  simp only [Event.isReportLine, reportLabels, h, List.any_cons, List.any_nil, hD, hH, hE, hS]
  rw [eq, eq, ne _ _ _ _ (by decide), ne _ _ _ _ (by decide), ne _ _ _ _ (by decide),
    ne _ _ _ _ (by decide)]
  rfl

/-- The events of `getWorkingHours` are the date-range line and at most one
request to the hours endpoint: no report line. -/
theorem getWorkingHours_events (w : World) (userId token : String) :
    ∀ e ∈ (getWorkingHours w userId token).1, e.isReportLine = false := by
  have hd : ∀ e ∈ (getStartAndEndDates w).1, e.isReportLine = false := by
    intro e he
    simp only [getStartAndEndDates, List.mem_singleton] at he
    rw [he]
    exact dateRange_not_reportLine _ _
  simp only [getWorkingHours]
  split
  · exact hd
  · have hh : ∀ e ∈ (getStartAndEndDates w).1 ++ [Event.hoursRequest
        (rubixxPunchUrl userId (getStartAndEndDates w).2.1 (getStartAndEndDates w).2.2)
        ("Bearer " ++ token)], e.isReportLine = false := by
      intro e he
      rcases List.mem_append.mp he with h | h
      · exact hd e h
      · rw [List.mem_singleton.mp h]; rfl
    split
    · exact hh
    · exact hh

theorem isReportLine_of_label (label rest : String) (h : label ∈ reportLabels) :
    (Event.stdout (label ++ rest)).isReportLine = true := by
  simp only [Event.isReportLine, List.any_eq_true]
  refine ⟨label, h, ?_⟩
  rw [String.data_append, List.isPrefixOf_iff_prefix]
  exact List.prefix_append _ _

theorem statusLine_isReportLine (delta : Float64) :
    (Event.stdout (statusLine delta)).isReportLine = true := by
  unfold statusLine
  split
  · have e : "Status: Over by " ++ Float64.format2 delta ++ " hours\n"
        = "Status: " ++ ("Over by " ++ Float64.format2 delta ++ " hours\n") := by
      simp only [String.append_assoc]
      rfl
    rw [e]
    exact isReportLine_of_label _ _ (by decide)
  · have e : "Status: Down by " ++ Float64.format2 (Float64.neg delta) ++ " hours\n"
        = "Status: " ++ ("Down by " ++ Float64.format2 (Float64.neg delta) ++ " hours\n") := by
      simp only [String.append_assoc]
      rfl
    rw [e]
    exact isReportLine_of_label _ _ (by decide)

/-- Every event of `logResult` is a line of the report, and there are four. -/
theorem logResult_events (fused : Bool) (n : Int) (h : Float64) :
    (logResult fused n h).length = 4 ∧ ∀ e ∈ logResult fused n h, e.isReportLine = true := by
  refine ⟨rfl, ?_⟩
  intro e he
  simp only [logResult, List.mem_cons, List.mem_singleton, List.not_mem_nil, or_false] at he
  rcases he with rfl | rfl | rfl | rfl
  · rw [String.append_assoc]; exact isReportLine_of_label _ _ (by decide)
  · rw [String.append_assoc]; exact isReportLine_of_label _ _ (by decide)
  · rw [String.append_assoc]; exact isReportLine_of_label _ _ (by decide)
  · exact statusLine_isReportLine _

theorem getUserAuthToken_non200 (w : World) (username password : String)
    (res : Response AuthResponse)
    (hget : w.httpGet (rubixxAuthUrl username password) = .ok res)
    (hstatus : res.StatusCode ≠ 200) :
    (getUserAuthToken w username password).2
      = .err ("authentication failed with status: " ++ res.Status) := by
  simp only [getUserAuthToken, hget, StatusOK]
  rw [if_pos hstatus]

/-- What `run` does once the credentials are read and authentication fails. -/
theorem run_auth_err (w : World) (username password e : String)
    (hcred : (getCredentials w).2 = .ok (username, password))
    (hauth : (getUserAuthToken w username password).2 = .err e) :
    run w = ((getCredentials w).1 ++ (getUserAuthToken w username password).1,
      .err ("authentication failed: " ++ e)) := by
  simp only [run, hcred, hauth]

/-- C8: when the credentials were read and the authentication endpoint answers
with a status other than 200, whatever the body, `getUserAuthToken` fails with
an error that carries the status text, and `run` returns that error under the
label "authentication failed: "; its effects are the prompts and the
authentication request only: no request to the hours endpoint and no line of
the report. -/
theorem C8_auth_failure_stops_run (w : World) (username password : String)
    (res : Response AuthResponse)
    (hcred : (getCredentials w).2 = .ok (username, password))
    (hget : w.httpGet (rubixxAuthUrl username password) = .ok res)
    (hstatus : res.StatusCode ≠ 200) :
    (getUserAuthToken w username password).2
        = .err ("authentication failed with status: " ++ res.Status) ∧
      (run w).2 = .err ("authentication failed: "
        ++ ("authentication failed with status: " ++ res.Status)) ∧
      (run w).1 = (getCredentials w).1
        ++ [Event.authRequest (rubixxAuthUrl username password)] ∧
      ∀ e ∈ (run w).1, e.isHoursRequest = false ∧ e.isReportLine = false := by
  have ha := getUserAuthToken_non200 w username password res hget hstatus
  have hr := run_auth_err w username password _ hcred ha
  rw [getUserAuthToken_events] at hr
  refine ⟨ha, by rw [hr], by rw [hr], ?_⟩
  rw [hr]
  intro e he
  rcases List.mem_append.mp he with h | h
  · exact ⟨(getCredentials_events w e h).2.1, (getCredentials_events w e h).2.2⟩
  · rw [List.mem_singleton.mp h]
    exact ⟨rfl, rfl⟩

/-- C8, at a 401 answer whose body would decode: the run ends with the
authentication error and its effects are the three prompts and the
authentication request. -/
theorem C8_auth_failure_stops_run_witness :
    (run (worldWithAuthStatus 401 "401 Unauthorized")).2
        = .err ("authentication failed: "
          ++ ("authentication failed with status: " ++ "401 Unauthorized")) ∧
      (run (worldWithAuthStatus 401 "401 Unauthorized")).1
        = (getCredentials (worldWithAuthStatus 401 "401 Unauthorized")).1
          ++ [Event.authRequest (rubixxAuthUrl "user" "secret")] :=
  ⟨(C8_auth_failure_stops_run (worldWithAuthStatus 401 "401 Unauthorized") "user" "secret"
      ⟨401, "401 Unauthorized", .ok ⟨⟨"u1", "t1"⟩⟩⟩ (by decide) rfl (by decide)).2.1,
   (C8_auth_failure_stops_run (worldWithAuthStatus 401 "401 Unauthorized") "user" "secret"
      ⟨401, "401 Unauthorized", .ok ⟨⟨"u1", "t1"⟩⟩⟩ (by decide) rfl (by decide)).2.2.1⟩

theorem getCredentials_ne_panic (w : World) (p : String) :
    (getCredentials w).2 ≠ .panic p := by
  simp only [getCredentials]
  split
  · exact fun h => Result.noConfusion h
  · split <;> exact fun h => Result.noConfusion h

theorem getUserAuthToken_ne_panic (w : World) (username password p : String) :
    (getUserAuthToken w username password).2 ≠ .panic p := by
  simp only [getUserAuthToken]
  split
  · exact fun h => Result.noConfusion h
  · split
    · exact fun h => Result.noConfusion h
    · split <;> exact fun h => Result.noConfusion h

theorem run_cred_err (w : World) (e : String) (hcred : (getCredentials w).2 = .err e) :
    run w = ((getCredentials w).1, .err ("failed to get credentials: " ++ e)) := by
  simp only [run, hcred]

theorem run_hours_err (w : World) (username password userId token e : String)
    (hcred : (getCredentials w).2 = .ok (username, password))
    (hauth : (getUserAuthToken w username password).2 = .ok (userId, token))
    (hhours : (getWorkingHours w userId token).2 = .err e) :
    run w = ((getCredentials w).1 ++ (getUserAuthToken w username password).1
        ++ (getWorkingHours w userId token).1,
      .err ("failed to retrieve working hours: " ++ e)) := by
  simp only [run, hcred, hauth, hhours]

theorem run_ok (w : World) (username password userId token : String) (d : Int) (h : Float64)
    (hcred : (getCredentials w).2 = .ok (username, password))
    (hauth : (getUserAuthToken w username password).2 = .ok (userId, token))
    (hhours : (getWorkingHours w userId token).2 = .ok (d, h)) :
    run w = ((getCredentials w).1 ++ (getUserAuthToken w username password).1
        ++ (getWorkingHours w userId token).1 ++ logResult w.fused d h, .ok ()) := by
  simp only [run, hcred, hauth, hhours]

/-- The stage at which `run` ends, with its result and its effects. -/
theorem run_cases (w : World) :
    (∃ e, (getCredentials w).2 = .err e ∧
        run w = ((getCredentials w).1, .err ("failed to get credentials: " ++ e))) ∨
      (∃ username password e, (getCredentials w).2 = .ok (username, password) ∧
        (getUserAuthToken w username password).2 = .err e ∧
        run w = ((getCredentials w).1 ++ (getUserAuthToken w username password).1,
          .err ("authentication failed: " ++ e))) ∨
      (∃ username password userId token e,
        (getCredentials w).2 = .ok (username, password) ∧
        (getUserAuthToken w username password).2 = .ok (userId, token) ∧
        (getWorkingHours w userId token).2 = .err e ∧
        run w = ((getCredentials w).1 ++ (getUserAuthToken w username password).1
            ++ (getWorkingHours w userId token).1,
          .err ("failed to retrieve working hours: " ++ e))) ∨
      (∃ username password userId token d h,
        (getCredentials w).2 = .ok (username, password) ∧
        (getUserAuthToken w username password).2 = .ok (userId, token) ∧
        (getWorkingHours w userId token).2 = .ok (d, h) ∧
        run w = ((getCredentials w).1 ++ (getUserAuthToken w username password).1
            ++ (getWorkingHours w userId token).1 ++ logResult w.fused d h, .ok ())) := by
  cases hc : (getCredentials w).2 with
  | err e => exact Or.inl ⟨e, rfl, run_cred_err w e hc⟩
  | panic p => exact absurd hc (getCredentials_ne_panic w p)
  | ok up =>
    obtain ⟨username, password⟩ := up
    cases ha : (getUserAuthToken w username password).2 with
    | err e =>
      exact Or.inr (Or.inl ⟨username, password, e, rfl, ha,
        run_auth_err w username password e hc ha⟩)
    | panic p => exact absurd ha (getUserAuthToken_ne_panic w username password p)
    | ok it =>
      obtain ⟨userId, token⟩ := it
      cases hh : (getWorkingHours w userId token).2 with
      | err e =>
        exact Or.inr (Or.inr (Or.inl ⟨username, password, userId, token, e, rfl, ha, hh,
          run_hours_err w username password userId token e hc ha hh⟩))
      | panic p => exact absurd hh (getWorkingHours_ne_panic w userId token p)
      | ok dh =>
        obtain ⟨d, h⟩ := dh
        exact Or.inr (Or.inr (Or.inr ⟨username, password, userId, token, d, h, rfl, ha, hh,
          run_ok w username password userId token d h hc ha hh⟩))

/-- The effects up to and including the hours request hold no report line. -/
theorem stages_no_reportLine (w : World) (username password userId token : String) :
    ∀ e ∈ (getCredentials w).1 ++ (getUserAuthToken w username password).1
        ++ (getWorkingHours w userId token).1, e.isReportLine = false := by
  intro e he
  rcases List.mem_append.mp he with h | h
  · rcases List.mem_append.mp h with h | h
    · exact (getCredentials_events w e h).2.2
    · rw [getUserAuthToken_events, List.mem_singleton] at h
      rw [h]; rfl
  · exact getWorkingHours_events w userId token e h

/-- C9: `run` executes the stages in the order credentials, authentication,
hours, report, and its effects are those of the stages in this order.  The
first stage that fails ends the run: the effects of no later stage occur, and
the error returned is the error of that stage after its label ("failed to get
credentials: ", "authentication failed: ", "failed to retrieve working
hours: ").  `run` returns no error exactly when the three stages succeed, and
a line of the report is printed exactly in that case. -/
theorem C9_run_stops_at_first_failure (w : World) :
    (∀ e, (getCredentials w).2 = .err e →
        run w = ((getCredentials w).1, .err ("failed to get credentials: " ++ e))) ∧
      (∀ username password e, (getCredentials w).2 = .ok (username, password) →
        (getUserAuthToken w username password).2 = .err e →
        run w = ((getCredentials w).1
            ++ [Event.authRequest (rubixxAuthUrl username password)],
          .err ("authentication failed: " ++ e))) ∧
      (∀ username password userId token e,
        (getCredentials w).2 = .ok (username, password) →
        (getUserAuthToken w username password).2 = .ok (userId, token) →
        (getWorkingHours w userId token).2 = .err e →
        run w = ((getCredentials w).1
            ++ [Event.authRequest (rubixxAuthUrl username password)]
            ++ (getWorkingHours w userId token).1,
          .err ("failed to retrieve working hours: " ++ e))) ∧
      (∀ username password userId token d h,
        (getCredentials w).2 = .ok (username, password) →
        (getUserAuthToken w username password).2 = .ok (userId, token) →
        (getWorkingHours w userId token).2 = .ok (d, h) →
        run w = ((getCredentials w).1
            ++ [Event.authRequest (rubixxAuthUrl username password)]
            ++ (getWorkingHours w userId token).1 ++ logResult w.fused d h, .ok ())) ∧
      (∀ e ∈ (getCredentials w).1,
        e.isAuthRequest = false ∧ e.isHoursRequest = false ∧ e.isReportLine = false) ∧
      (∀ userId token, ∀ e ∈ (getWorkingHours w userId token).1,
        e.isReportLine = false) ∧
      ((run w).2 = .ok () ↔ ∃ username password userId token d h,
        (getCredentials w).2 = .ok (username, password) ∧
        (getUserAuthToken w username password).2 = .ok (userId, token) ∧
        (getWorkingHours w userId token).2 = .ok (d, h)) ∧
      ((∃ e ∈ (run w).1, e.isReportLine = true) ↔ (run w).2 = .ok ()) := by
  refine ⟨fun e hc => run_cred_err w e hc, ?_, ?_, ?_, getCredentials_events w,
    fun userId token => getWorkingHours_events w userId token, ?_, ?_⟩
  · intro username password e hc ha
    rw [run_auth_err w username password e hc ha, getUserAuthToken_events]
  · intro username password userId token e hc ha hh
    rw [run_hours_err w username password userId token e hc ha hh, getUserAuthToken_events]
  · intro username password userId token d h hc ha hh
    rw [run_ok w username password userId token d h hc ha hh, getUserAuthToken_events]
  · constructor
    · intro hr
      rcases run_cases w with ⟨e, -, h⟩ | ⟨u, p, e, -, -, h⟩ | ⟨u, p, i, t, e, -, -, -, h⟩
        | ⟨u, p, i, t, d, hh, hc, ha, hw, -⟩
      · rw [h] at hr; exact Result.noConfusion hr
      · rw [h] at hr; exact Result.noConfusion hr
      · rw [h] at hr; exact Result.noConfusion hr
      · exact ⟨u, p, i, t, d, hh, hc, ha, hw⟩
    · rintro ⟨u, p, i, t, d, hh, hc, ha, hw⟩
      rw [run_ok w u p i t d hh hc ha hw]
  · constructor
    · rintro ⟨ev, hev, hrep⟩
      rcases run_cases w with ⟨e, -, h⟩ | ⟨u, p, e, -, -, h⟩ | ⟨u, p, i, t, e, -, -, -, h⟩
        | ⟨u, p, i, t, d, hh, -, -, -, h⟩
      · rw [h] at hev
        rw [(getCredentials_events w ev hev).2.2] at hrep
        exact Bool.noConfusion hrep
      · rw [h] at hev
        have hno := stages_no_reportLine w u p "" "" ev
          (List.mem_append_left _ hev)
        rw [hno] at hrep
        exact Bool.noConfusion hrep
      · rw [h] at hev
        rw [stages_no_reportLine w u p i t ev hev] at hrep
        exact Bool.noConfusion hrep
      · rw [h]
    · intro hr
      rcases run_cases w with ⟨e, -, h⟩ | ⟨u, p, e, -, -, h⟩ | ⟨u, p, i, t, e, -, -, -, h⟩
        | ⟨u, p, i, t, d, hh, -, -, -, h⟩
      · rw [h] at hr; exact Result.noConfusion hr
      · rw [h] at hr; exact Result.noConfusion hr
      · rw [h] at hr; exact Result.noConfusion hr
      · rw [h]
        refine ⟨Event.stdout (statusLine (reportDelta w.fused d hh)), ?_,
          statusLine_isReportLine _⟩
        apply List.mem_append_right
        simp [logResult]

end Rubixx
